import Mathlib

/-!
Verification of the motion-planning core of the klipper fork (klippy).

The Python sources under `src/klippy/` are embedded shallowly:

 - pure numeric code over Python floats is modelled over `ℚ` where only
   field arithmetic and comparisons occur, and over `ℝ` where `math.sqrt`,
   `math.atan2`, `math.sin`, `math.cos` or `math.pi` appear;
 - in-place mutation of Python objects becomes explicit state passing;
 - Python code that can raise (`ZeroDivisionError`, `ValueError`,
   `gcmd.error`, `move.move_error`) returns `Option` / `Except` / an error
   flag, and the state returned alongside an error is the state of the
   mutated object at the moment the exception is raised (mutations made
   before the raise persist on the Python object).

Each embedded definition cites the Python function it was translated from.
-/

namespace Klippy

/-! ## G-code motion state (`src/klippy/extras/gcode_move.py`)

`GCodeMove` keeps coordinate state as plain Python lists of floats plus a
few scalars.  `axis_count` is the number of non-extruder axes (3 for XYZ,
6 for XYZABC); position lists have `axis_count + 1` entries, the last one
being the extruder. -/

/-- State of a `GCodeMove` object: the fields mutated by the G-code
command handlers (`gcode_move.py`, `GCodeMove.__init__`). -/
structure GState where
  absolute_coord : Bool
  absolute_extrude : Bool
  base_position : List ℚ
  last_position : List ℚ
  homing_position : List ℚ
  speed : ℚ
  speed_factor : ℚ
  extrude_factor : ℚ
deriving DecidableEq, Repr

/-- One G-code command parameter as seen by `cmd_G1`: missing from the
command, present but not parseable as a float (Python `float(...)` raises
`ValueError`), or a parsed float value. -/
inductive GParam where
  | absent : GParam
  | malformed : GParam
  | val : ℚ → GParam
deriving DecidableEq, Repr

/-- Body of the per-axis loop of `GCodeMove.cmd_G1` (gcode_move.py lines
211-220): update `last_position[pos]` from a parsed axis value `v`. -/
def g1UpdateAxis (s : GState) (pos : ℕ) (v : ℚ) : GState :=
  if s.absolute_coord = false then
    { s with last_position :=
        s.last_position.set pos (s.last_position.getD pos 0 + v) }
  else
    { s with last_position :=
        s.last_position.set pos (v + s.base_position.getD pos 0) }

/-- The per-axis loop of `GCodeMove.cmd_G1`: iterate the axis positions in
order; a malformed parameter raises `ValueError` (flag `true`), keeping
the updates already made to `last_position`. -/
def g1Axes (pAxes : ℕ → GParam) : List ℕ → GState → GState × Bool
  | [], s => (s, false)
  | pos :: rest, s =>
    match pAxes pos with
    | .absent => g1Axes pAxes rest s
    | .malformed => (s, true)
    | .val v => g1Axes pAxes rest (g1UpdateAxis s pos v)

/-- The extruder branch of `GCodeMove.cmd_G1` (lines 222-230). -/
def g1Extruder (axis_count : ℕ) (pE : GParam) (s : GState) : GState × Bool :=
  match pE with
  | .absent => (s, false)
  | .malformed => (s, true)
  | .val ev =>
    let v := ev * s.extrude_factor
    if s.absolute_coord = false ∨ s.absolute_extrude = false then
      ({ s with last_position :=
          s.last_position.set axis_count (s.last_position.getD axis_count 0 + v) }, false)
    else
      ({ s with last_position :=
          s.last_position.set axis_count (v + s.base_position.getD axis_count 0) }, false)

/-- The feedrate branch of `GCodeMove.cmd_G1` (lines 232-237): a present
`F` that parses to a value `≤ 0` raises `gcmd.error` before `speed` is
assigned; a malformed `F` raises `ValueError`. -/
def g1Feedrate (pF : GParam) (s : GState) : GState × Bool :=
  match pF with
  | .absent => (s, false)
  | .malformed => (s, true)
  | .val f => if f ≤ 0 then (s, true) else ({ s with speed := f * s.speed_factor }, false)

/-- `GCodeMove.cmd_G1` (gcode_move.py lines 204-247), up to the final
dispatch `move_with_transform(last_position, speed)` which is not part of
the coordinate-state update.  The boolean is `true` when the command
raised (`ValueError` re-raised as a command error, or invalid speed); the
returned state keeps every mutation made before the raise. -/
def cmd_G1 (axis_count : ℕ) (pAxes : ℕ → GParam) (pE pF : GParam) (s : GState) :
    GState × Bool :=
  let step1 := g1Axes pAxes (List.range axis_count) s
  if step1.2 = true then step1
  else
    let step2 := g1Extruder axis_count pE step1.1
    if step2.2 = true then step2
    else g1Feedrate pF step2.1

/-- The per-offset loop of `GCodeMove.cmd_G92` (gcode_move.py lines
272-276), over the enumerated offsets list: a provided offset `o` sets
`base_position[i] = last_position[i] - o`, with the extruder offset
(`i == axis_count`) first scaled by `extrude_factor`. -/
def g92Loop (axis_count : ℕ) : List (ℕ × Option ℚ) → GState → GState
  | [], s => s
  | (_, none) :: rest, s => g92Loop axis_count rest s
  | (i, some o) :: rest, s =>
    let o2 := if i = axis_count then o * s.extrude_factor else o
    g92Loop axis_count rest
      { s with base_position := s.base_position.set i (s.last_position.getD i 0 - o2) }

/-- `GCodeMove.cmd_G92` (gcode_move.py lines 269-278).  The offsets list
has one entry per letter of `axis_names + 'E'`, so `axis_count + 1`
entries.  Note the snapshot guard compares against the literal four-`None`
list `[None, None, None, None]` from the source. -/
def cmd_G92 (axis_count : ℕ) (offsets : List (Option ℚ)) (s : GState) : GState :=
  let s1 := g92Loop axis_count offsets.enum s
  if offsets = [none, none, none, none] then
    { s1 with base_position := s1.last_position }
  else s1

/-! ## Radiometer checksums (`src/klippy/extras/radiometer.py`,
`src/klippy/extras/fakeradiometer.py`)

Both checksum helpers reduce a byte string with `+` (Python `reduce`
raises `TypeError` on an empty sequence, hence the `Option`), then call
`int.to_bytes(4, endian)` (which raises `OverflowError` for values
`≥ 256^4`, hence the inner `Option`) and extract one byte. -/

/-- Python `n.to_bytes(4, 'big')` as a list of byte values,
most-significant first. -/
def to_bytes_big (n : ℕ) : Option (List ℕ) :=
  if n < 256 ^ 4 then
    some ((List.range 4).map (fun i => n / 256 ^ (3 - i) % 256))
  else none

/-- Python `n.to_bytes(4, 'little')` as a list of byte values,
least-significant first. -/
def to_bytes_little (n : ℕ) : Option (List ℕ) :=
  if n < 256 ^ 4 then
    some ((List.range 4).map (fun i => n / 256 ^ i % 256))
  else none

/-- `check_crc` from fakeradiometer.py (lines 53-55): sum the bytes,
serialize big-endian over 4 bytes, and return the value of the last byte
(`buffer_sum[-1]`, an `int` in Python). -/
def check_crc (data : List ℕ) : Option ℕ :=
  if data = [] then none
  else (to_bytes_big data.sum).bind (fun bs => bs.getLast?)

/-- `calc_crc` from radiometer.py (lines 68-70): sum the bytes, serialize
little-endian over 4 bytes, and return the first byte
(`overflow_sum[:1]`, a one-byte `bytes` in Python; we model the value of
that byte). -/
def calc_crc (data : List ℕ) : Option ℕ :=
  if data = [] then none
  else (to_bytes_little data.sum).bind (fun bs => bs.head?)

/-! ## Toolhead print-time clock (`src/klippy/extras/toolhead_stepper.py`)

`ExtraToolHead` advances `print_time` only through `_update_move_time` and
`_calc_print_time`.  The embedding below tracks exactly the fields those
paths read or write (`print_time`, `special_queuing_state`,
`force_flush_time`, `last_kin_move_time`, `kin_flush_delay`) and threads
external inputs explicitly: the MCU's `estimated_print_time` samples, the
durations of the moves flushed out of the look-ahead queue, and the
results of `drip_completion.test()`.

`MoveQueue` and the timing constants live in `toolhead.py`, which is not
part of the sources; those two pieces are modelled from the spec (see
`QueueFlushInput` and `THConsts`). -/

/-- Modelled from the spec: the timing constants imported from
`toolhead.py` (`MOVE_BATCH_TIME`, `MIN_KIN_TIME`, `DRIP_SEGMENT_TIME`) and
the configured `buffer_time_start`; the spec fixes none of their values
but all are positive durations (`buffer_time_start` defaults to 0.25 s,
`above=0`). -/
structure THConsts where
  move_batch_time : ℚ
  min_kin_time : ℚ
  drip_segment_time : ℚ
  buffer_time_start : ℚ
deriving DecidableEq, Repr

/-- The toolhead's `special_queuing_state`: the Python strings `""`
(main), `"Flushed"`, `"Priming"`, `"Drip"`. -/
inductive QueueState where
  | main : QueueState
  | flushed : QueueState
  | priming : QueueState
  | drip : QueueState
deriving DecidableEq, Repr

/-- The `ExtraToolHead` fields read or written on the print-time paths. -/
structure THState where
  print_time : ℚ
  special_queuing_state : QueueState
  force_flush_time : ℚ
  last_kin_move_time : ℚ
  kin_flush_delay : ℚ
deriving DecidableEq, Repr

/-- The `while 1:` loop body of `ExtraToolHead._update_move_time`
(toolhead_stepper.py lines 537-588), restricted to its effect on
`print_time`: `print_time = min(print_time + batch_time, next_print_time)`
repeated until `print_time >= next_print_time`.  The step generators,
trapq finalization and MCU flushes invoked inside the loop do not touch
the toolhead state modelled here.  The recursion is fuelled; `umtFuel`
below provides enough fuel for the loop to reach its exit condition. -/
def umtGo : ℕ → ℚ → ℚ → ℚ → ℚ
  | 0, _, pt, _ => pt
  | fuel + 1, batch, pt, next =>
    let pt2 := min (pt + batch) next
    if next ≤ pt2 then pt2 else umtGo fuel batch pt2 next

/-- Fuel bound for `umtGo`: one more than the number of `batch`-sized
steps from `pt` up to `next`. -/
def umtFuel (batch pt next : ℚ) : ℕ :=
  (⌈(next - pt) / batch⌉).toNat + 1

/-- `ExtraToolHead._update_move_time(next_print_time)` (lines 520-588),
as a state transformer on the print-time fields. -/
def update_move_time (c : THConsts) (next : ℚ) (s : THState) : THState :=
  let pt :=
    umtGo (umtFuel c.move_batch_time s.print_time next) c.move_batch_time s.print_time next
  { s with print_time := pt }

/-- `ExtraToolHead._calc_print_time` (lines 590-624).  `est` is the value
of `mcu.estimated_print_time(reactor.monotonic())`. -/
def calc_print_time (c : THConsts) (est : ℚ) (s : THState) : THState :=
  let kin_time := max (est + c.min_kin_time) s.force_flush_time + s.kin_flush_delay
  let min_print_time := max (est + c.buffer_time_start) kin_time
  if min_print_time > s.print_time then { s with print_time := min_print_time } else s

/-- The `while self.print_time < next_print_time:` loop of
`ExtraToolHead._update_drip_move_time` (lines 1102-1131).  Each list
entry is one `drip_completion.test()` result for an iteration that
reaches the test; `true` raises `DripModeEndSignal` (second component of
the result).  Iterations that merely `wait` and `continue` leave the
state unchanged and are not modelled.  The list also serves as fuel. -/
def drip_update (c : THConsts) (next : ℚ) : List Bool → THState → THState × Bool
  | [], s => (s, false)
  | t :: rest, s =>
    if ¬s.print_time < next then (s, false)
    else if t then (s, true)
    else
      drip_update c next rest
        (update_move_time c (min (s.print_time + c.drip_segment_time) next) s)

/-- `ExtraToolHead._process_moves(moves)` (lines 625-745), restricted to
the print-time fields.  `durs` are the total durations
`accel_t + cruise_t + decel_t` of the processed moves; `tests` feeds
`_update_drip_move_time`.  The boolean result is `true` when
`DripModeEndSignal` escaped (in which case the final
`_update_move_time` / `last_kin_move_time` lines are not reached). -/
def process_moves (c : THConsts) (est : ℚ) (durs : List ℚ) (tests : List Bool)
    (s : THState) : THState × Bool :=
  let s0 :=
    if s.special_queuing_state ≠ .main then
      if s.special_queuing_state ≠ .drip then
        { s with special_queuing_state := .main }
      else s
    else s
  let s1 := if s.special_queuing_state ≠ .main then calc_print_time c est s0 else s0
  let next := s1.print_time + durs.sum
  let step2 : THState × Bool :=
    if s1.special_queuing_state = .drip then drip_update c next tests s1 else (s1, false)
  if step2.2 then (step2.1, true)
  else
    let s3 := update_move_time c next step2.1
    ({ s3 with last_kin_move_time := max s3.last_kin_move_time next }, false)

/-- Modelled from the spec: `MoveQueue.flush` lives in `toolhead.py`,
which is not among the sources.  Per the spec (sections 4.3 and 4.4) it
runs the look-ahead pass over a prefix of the queued moves and hands them
to `_process_moves`; when nothing is ready it does not call
`_process_moves` at all.  A flush is therefore either `none` (no call) or
the inputs of the resulting `_process_moves` call. -/
abbrev QueueFlushInput : Type := Option (List ℚ × List Bool)

/-- Durations handed to `_process_moves` are the trapezoid times
`accel_t + cruise_t + decel_t` of planned moves; per the spec (section
4.3) all three phases are nonnegative. -/
def QueueFlushInput.Nonneg (q : QueueFlushInput) : Prop :=
  ∀ durs tests, q = some (durs, tests) → ∀ d ∈ durs, 0 ≤ d

/-- `self.move_queue.flush()` as seen from the toolhead state. -/
def queue_flush (c : THConsts) (est : ℚ) (q : QueueFlushInput) (s : THState) :
    THState × Bool :=
  match q with
  | none => (s, false)
  | some (durs, tests) => process_moves c est durs tests s

/-- The part of `ExtraToolHead.flush_step_generation` after the
look-ahead flush (lines 757-790): mark the state Flushed, extend the
flush horizon over the kinematic scan windows, raise `force_flush_time`
and flush up to `max(print_time, force_flush_time)`. -/
def fsg_post (c : THConsts) (sA : THState) : THState :=
  let s2 := { sA with special_queuing_state := QueueState.flushed }
  let lastf := s2.print_time - s2.kin_flush_delay
  let flush_time := max lastf (s2.last_kin_move_time + s2.kin_flush_delay)
  let s3 := if flush_time > s2.print_time then update_move_time c flush_time s2 else s2
  let s4 := { s3 with force_flush_time := max s3.force_flush_time flush_time }
  update_move_time c (max s4.print_time s4.force_flush_time) s4

/-- `ExtraToolHead.flush_step_generation` (lines 747-790). -/
def flush_step_generation (c : THConsts) (est : ℚ) (q : QueueFlushInput)
    (s : THState) : THState × Bool :=
  let step := queue_flush c est q s
  if step.2 then (step.1, true)
  else (fsg_post c step.1, false)

/-- `ExtraToolHead._flush_lookahead` (lines 792-795). -/
def flush_lookahead (c : THConsts) (est : ℚ) (q : QueueFlushInput) (s : THState) :
    THState × Bool :=
  if s.special_queuing_state ≠ .main then flush_step_generation c est q s
  else queue_flush c est q s

/-- `ExtraToolHead.get_last_move_time` (lines 797-811); its return value
is the `print_time` of the resulting state. -/
def get_last_move_time (c : THConsts) (est : ℚ) (q : QueueFlushInput) (s : THState) :
    THState × Bool :=
  let step := flush_lookahead c est q s
  if step.2 then (step.1, true)
  else if step.1.special_queuing_state ≠ .main then (calc_print_time c est step.1, false)
  else (step.1, false)

/-- `ExtraToolHead.dwell(delay)` (lines 1055-1063); the trailing
`_check_stall` only pauses and never writes the fields modelled here. -/
def dwell (c : THConsts) (est : ℚ) (q : QueueFlushInput) (delay : ℚ) (s : THState) :
    THState × Bool :=
  let step := get_last_move_time c est q s
  if step.2 then (step.1, true)
  else (update_move_time c (step.1.print_time + max 0 delay) step.1, false)

/-- `ExtraToolHead.move(newpos, speed)` (lines 982-1032), restricted to
the print-time fields: building the `Move`, checking it and updating
`commanded_pos` do not touch them; `move_queue.add_move` may flush a
prefix of the queue (`q`), and `_check_stall` only pauses. -/
def move_clock (c : THConsts) (est : ℚ) (q : QueueFlushInput) (s : THState) :
    THState × Bool :=
  queue_flush c est q s

/-- `ExtraToolHead.wait_moves` (lines 1065-1092), restricted to the
print-time fields: after `_flush_lookahead` it only polls and pauses. -/
def wait_moves (c : THConsts) (est : ℚ) (q : QueueFlushInput) (s : THState) :
    THState × Bool :=
  flush_lookahead c est q s

/-- `ExtraToolHead.set_position(newpos, homing_axes)` (lines 887-926),
restricted to the print-time fields: after `flush_step_generation` it
only repositions trapqs, rails and `commanded_pos`. -/
def set_position_clock (c : THConsts) (est : ℚ) (q : QueueFlushInput) (s : THState) :
    THState × Bool :=
  flush_step_generation c est q s

/-- External inputs consumed by one `ExtraToolHead.drip_move` call: the
`estimated_print_time` samples and queue-flush contents of its successive
internal steps, whether `self.move` raised a `command_error`, and the
drip-loop inputs of the transmitting flush. -/
structure DripInputs where
  est_dwell : ℚ
  q_dwell : QueueFlushInput
  est_entry : ℚ
  q_entry : QueueFlushInput
  move_error : Bool
  est_moveflush : ℚ
  q_move : QueueFlushInput
  est_drip : ℚ
  drip_durs : List ℚ
  drip_tests : List Bool
  est_exit : ℚ
  q_exit : QueueFlushInput

/-- `ExtraToolHead.drip_move(newpos, speed, drip_completion)` (lines
1134-1217): dwell by `kin_flush_delay`, flush, enter the Drip state,
submit the move (on a `command_error`: `flush_step_generation` and
re-raise), transmit it via `move_queue.flush` (catching
`DripModeEndSignal`; the queue reset and trapq finalization in the
handler do not touch the fields modelled here), and exit via
`flush_step_generation`. -/
def drip_move (c : THConsts) (i : DripInputs) (s : THState) : THState × Bool :=
  let step1 := dwell c i.est_dwell i.q_dwell s.kin_flush_delay s
  if step1.2 then (step1.1, true)
  else
    let step2 := queue_flush c i.est_entry i.q_entry step1.1
    if step2.2 then (step2.1, true)
    else
      let s2 := { step2.1 with special_queuing_state := QueueState.drip }
      if i.move_error then ((flush_step_generation c i.est_moveflush i.q_move s2).1, true)
      else
        let step3 := queue_flush c i.est_moveflush i.q_move s2
        if step3.2 then (step3.1, true)
        else
          let step4 := process_moves c i.est_drip i.drip_durs i.drip_tests step3.1
          flush_step_generation c i.est_exit i.q_exit step4.1

/-! ## Moves (`src/klippy/extras/toolhead_stepper.py`, class `Move`)

Python float arithmetic is modelled over `ℝ` because `Move` uses
`math.sqrt`.  Divisions that can raise `ZeroDivisionError` in Python are
modelled with explicit guards returning `none`. -/

/-- The toolhead configuration read by `Move.__init__`:
`toolhead.min_axis_sets * 3` (stored here directly as `axis_count`),
`max_velocity`, `max_accel`, `max_accel_to_decel` and
`junction_deviation`. -/
structure THConfig where
  axis_count : ℕ
  max_velocity : ℝ
  max_accel : ℝ
  max_accel_to_decel : ℝ
  junction_deviation : ℝ

/-- A `Move` object: the fields set by `Move.__init__` plus the planner
fields later assigned by `set_junction` (kept at 0 until then). -/
structure Move where
  start_pos : List ℝ
  end_pos : List ℝ
  accel : ℝ
  junction_deviation : ℝ
  is_kinematic_move : Bool
  axis_count : ℕ
  axes_d : List ℝ
  move_d : ℝ
  axes_r : List ℝ
  min_move_t : ℝ
  max_start_v2 : ℝ
  max_cruise_v2 : ℝ
  delta_v2 : ℝ
  max_smoothed_v2 : ℝ
  smooth_delta_v2 : ℝ
  start_v : ℝ
  cruise_v : ℝ
  end_v : ℝ
  accel_t : ℝ
  cruise_t : ℝ
  decel_t : ℝ

/-- The displacement vector of `Move.__init__` (line 62):
`axes_d = [end_pos[i] - start_pos[i] for i in range(axis_count + 1)]`. -/
noncomputable def moveAxesD (axis_count : ℕ) (start_pos end_pos : List ℝ) : List ℝ :=
  (List.range (axis_count + 1)).map (fun i => end_pos.getD i 0 - start_pos.getD i 0)

/-- The kinematic move distance of `Move.__init__` (line 65):
`move_d = sqrt(sum([d*d for d in axes_d[:axis_count]]))`. -/
noncomputable def moveDist (axis_count : ℕ) (start_pos end_pos : List ℝ) : ℝ :=
  Real.sqrt ((((moveAxesD axis_count start_pos end_pos).take axis_count).map
    (fun d => d * d)).sum)

/-- `Move.__init__` (toolhead_stepper.py lines 36-110).  When the
kinematic distance is below 1e-9 the move is re-classified as an
extrude-only move: the kinematic components of `end_pos` are reset to
`start_pos`, the kinematic displacements are zeroed and `move_d` becomes
the absolute extruder displacement. -/
noncomputable def Move.init (cfg : THConfig) (start_pos end_pos : List ℝ) (speed : ℝ) :
    Move :=
  let axis_count := cfg.axis_count
  let velocity := min speed cfg.max_velocity
  let axes_d := moveAxesD axis_count start_pos end_pos
  let move_d := moveDist axis_count start_pos end_pos
  if move_d < 1 / 1000000000 then
    let d_e := axes_d.getD axis_count 0
    let end_pos2 := (List.range axis_count).map (fun i => start_pos.getD i 0)
      ++ [end_pos.getD axis_count 0]
    let axes_d2 := List.replicate axis_count (0 : ℝ) ++ [d_e]
    let move_d2 := |d_e|
    let inv_move_d := if move_d2 ≠ 0 then 1 / move_d2 else 0
    { start_pos := start_pos
      end_pos := end_pos2
      accel := 99999999.9
      junction_deviation := cfg.junction_deviation
      is_kinematic_move := false
      axis_count := axis_count
      axes_d := axes_d2
      move_d := move_d2
      axes_r := axes_d2.map (fun d => d * inv_move_d)
      min_move_t := move_d2 / speed
      max_start_v2 := 0
      max_cruise_v2 := speed ^ 2
      delta_v2 := 2 * move_d2 * 99999999.9
      max_smoothed_v2 := 0
      smooth_delta_v2 := 2 * move_d2 * cfg.max_accel_to_decel
      start_v := 0, cruise_v := 0, end_v := 0
      accel_t := 0, cruise_t := 0, decel_t := 0 }
  else
    let inv_move_d := 1 / move_d
    { start_pos := start_pos
      end_pos := end_pos
      accel := cfg.max_accel
      junction_deviation := cfg.junction_deviation
      is_kinematic_move := true
      axis_count := axis_count
      axes_d := axes_d
      move_d := move_d
      axes_r := axes_d.map (fun d => d * inv_move_d)
      min_move_t := move_d / velocity
      max_start_v2 := 0
      max_cruise_v2 := velocity ^ 2
      delta_v2 := 2 * move_d * cfg.max_accel
      max_smoothed_v2 := 0
      smooth_delta_v2 := 2 * move_d * cfg.max_accel_to_decel
      start_v := 0, cruise_v := 0, end_v := 0
      accel_t := 0, cruise_t := 0, decel_t := 0 }

/-- `Move.limit_speed(speed, accel)` (lines 112-119).  `none` models the
`ZeroDivisionError` of `self.move_d / speed` when the branch
`speed2 < max_cruise_v2` is taken with `speed == 0`. -/
noncomputable def limit_speed (m : Move) (speed accel : ℝ) : Option Move :=
  let speed2 := speed ^ 2
  if speed2 < m.max_cruise_v2 ∧ speed = 0 then none
  else
    let m1 :=
      if speed2 < m.max_cruise_v2 then
        { m with max_cruise_v2 := speed2, min_move_t := m.move_d / speed }
      else m
    let a := min m1.accel accel
    let d := 2 * m1.move_d * a
    some { m1 with accel := a, delta_v2 := d,
                   smooth_delta_v2 := min m1.smooth_delta_v2 d }

/-- The junction cosine as computed by `Move.calc_junction` (line 142):
the Python source sums `axes_r[0] * prev_axes_r[0]` once per kinematic
axis, the loop index `i` being unused, so the value is
`-axis_count * axes_r[0] * prev_axes_r[0]`. -/
noncomputable def junction_cos_code (axis_count : ℕ) (axes_r prev_axes_r : List ℝ) : ℝ :=
  -(((List.range axis_count).map
    (fun _ => axes_r.getD 0 0 * prev_axes_r.getD 0 0)).sum)

/-- The junction cosine the spec describes: the negative dot product of
the two unit direction vectors over the kinematic axes,
`-(u_prev . u)` (spec section 4.3). -/
noncomputable def junction_cos_spec (axis_count : ℕ) (axes_r prev_axes_r : List ℝ) : ℝ :=
  -(((List.range axis_count).map
    (fun i => axes_r.getD i 0 * prev_axes_r.getD i 0)).sum)

/-- `Move.calc_junction(prev_move)` (lines 129-164).  `extruder_v2` is
the result of `toolhead.extruder.calc_junction(prev_move, self)`, an
external collaborator.  The function returns the updated `self`; the
early returns leave it unchanged. -/
noncomputable def calc_junction (extruder_v2 : ℝ) (prev_move m : Move) : Move :=
  if ¬(m.is_kinematic_move = true) ∨ ¬(prev_move.is_kinematic_move = true) then m
  else
    let junction_cos_theta := junction_cos_code m.axis_count m.axes_r prev_move.axes_r
    if junction_cos_theta > 0.999999 then m
    else
      let jct := max junction_cos_theta (-0.999999)
      let sin_theta_d2 := Real.sqrt (0.5 * (1 - jct))
      let r_jd := sin_theta_d2 / (1 - sin_theta_d2)
      let tan_theta_d2 := sin_theta_d2 / Real.sqrt (0.5 * (1 + jct))
      let move_centripetal_v2 := 0.5 * m.move_d * tan_theta_d2 * m.accel
      let prev_move_centripetal_v2 := 0.5 * prev_move.move_d * tan_theta_d2 * prev_move.accel
      let msv2 :=
        min (r_jd * m.junction_deviation * m.accel)
          (min (r_jd * prev_move.junction_deviation * prev_move.accel)
            (min move_centripetal_v2
              (min prev_move_centripetal_v2
                (min extruder_v2
                  (min m.max_cruise_v2
                    (min prev_move.max_cruise_v2
                      (prev_move.max_start_v2 + prev_move.delta_v2)))))))
      { m with max_start_v2 := msv2,
               max_smoothed_v2 :=
                 min msv2 (prev_move.max_smoothed_v2 + prev_move.smooth_delta_v2) }

/-- `Move.set_junction(start_v2, cruise_v2, end_v2)` (lines 166-196).
`none` models the `ZeroDivisionError` raised when `self.accel` is zero
(`half_inv_accel = .5 / self.accel`), the `ValueError` of `math.sqrt` on
a negative input, and the `ZeroDivisionError` of a phase-time division
with a zero denominator; the guards appear in the order in which Python
would evaluate the faulting expressions. -/
noncomputable def set_junction (m : Move) (start_v2 cruise_v2 end_v2 : ℝ) : Option Move :=
  if m.accel = 0 then none
  else if start_v2 < 0 ∨ cruise_v2 < 0 ∨ end_v2 < 0 then none
  else
    let half_inv_accel := 0.5 / m.accel
    let accel_d := (cruise_v2 - start_v2) * half_inv_accel
    let decel_d := (cruise_v2 - end_v2) * half_inv_accel
    let cruise_d := m.move_d - accel_d - decel_d
    let start_v := Real.sqrt start_v2
    let cruise_v := Real.sqrt cruise_v2
    let end_v := Real.sqrt end_v2
    if (start_v + cruise_v) * 0.5 = 0 then none
    else if cruise_v = 0 then none
    else if (end_v + cruise_v) * 0.5 = 0 then none
    else
      some { m with
        start_v := start_v, cruise_v := cruise_v, end_v := end_v,
        accel_t := accel_d / ((start_v + cruise_v) * 0.5),
        cruise_t := cruise_d / cruise_v,
        decel_t := decel_d / ((end_v + cruise_v) * 0.5) }

/-- Result of `ExtraToolHead.move(newpos, speed)`: the zero-distance
early return (line 1000), a move error raised by a checker, or success
with the new value of `commanded_pos`. -/
inductive MoveResult where
  | earlyReturn : MoveResult
  | rejected : MoveResult
  | moved : List ℝ → MoveResult

/-- `ExtraToolHead.move(newpos, speed)` (lines 982-1032) as a function of
`commanded_pos`.  `self.check_moves` is hardcoded `False` in
`ExtraToolHead.__init__` (line 242), so the kinematic `check_move` calls
are skipped; the extruder's `check_move` (an external collaborator,
called when the extruder displacement is nonzero) is abstracted by
`extruder_ok`.  On success `commanded_pos[:] = move.end_pos`. -/
noncomputable def toolhead_move (cfg : THConfig) (extruder_ok : Bool)
    (commanded_pos newpos : List ℝ) (speed : ℝ) : MoveResult :=
  let m := Move.init cfg commanded_pos newpos speed
  if m.move_d = 0 then .earlyReturn
  else if m.axes_d.getD cfg.axis_count 0 ≠ 0 ∧ ¬(extruder_ok = true) then .rejected
  else .moved m.end_pos

/-! ## Cartesian kinematics (`src/klippy/kinematics/cartesian.py`,
`src/klippy/kinematics/cartesian_abc.py`) -/

/-- A move error raised by `_check_endstops`: `move.move_error("Must home
axis X first")` with the axis letter, or the default
`move.move_error()` whose message is "Move out of range". -/
inductive KinErr where
  | mustHome : Char → KinErr
  | outOfRange : KinErr
deriving DecidableEq, Repr

/-- The loop of `CartKinematics._check_endstops` (cartesian.py lines
143-155) and `CartKinematicsABC._check_endstops` (cartesian_abc.py lines
222-243): walk the kinematic's axis list with its enumeration index `i`,
and fail on the first axis with nonzero displacement whose end position
lies outside `limits[i]`. -/
noncomputable def check_endstops_go (axis_names : List Char) (limits : List (ℝ × ℝ))
    (m : Move) : ℕ → List ℕ → Option KinErr
  | _, [] => none
  | i, a :: rest =>
    let lim := limits.getD i (1, -1)
    if m.axes_d.getD a 0 ≠ 0 ∧
        (m.end_pos.getD a 0 < lim.1 ∨ m.end_pos.getD a 0 > lim.2) then
      some (if lim.1 > lim.2 then .mustHome (axis_names.getD i '?') else .outOfRange)
    else check_endstops_go axis_names limits m (i + 1) rest

/-- `_check_endstops(move)` over a kinematic's axis index list. -/
noncomputable def check_endstops (axis_names : List Char) (axis : List ℕ)
    (limits : List (ℝ × ℝ)) (m : Move) : Option KinErr :=
  check_endstops_go axis_names limits m 0 axis

/-- `CartKinematics.check_move(move)` (cartesian.py lines 157-171); the
kinematic's `self.axis` is `[0, 1, 2]` and its `axis_names` the first
three toolhead axis letters.  The outer `Option` (`none`) models a
`ZeroDivisionError` inside `limit_speed` (unreachable when
`max_z_velocity` and `move_d` are positive). -/
noncomputable def cart_check_move (axis_names : List Char) (max_z_velocity max_z_accel : ℝ)
    (limits : List (ℝ × ℝ)) (m : Move) : Option (Except KinErr Move) :=
  let xpos := m.end_pos.getD 0 0
  let ypos := m.end_pos.getD 1 0
  let l0 := limits.getD 0 (1, -1)
  let l1 := limits.getD 1 (1, -1)
  let first : Option KinErr :=
    if xpos < l0.1 ∨ xpos > l0.2 ∨ ypos < l1.1 ∨ ypos > l1.2 then
      check_endstops axis_names [0, 1, 2] limits m
    else none
  match first with
  | some e => some (.error e)
  | none =>
    if m.axes_d.getD 2 0 = 0 then some (.ok m)
    else
      match check_endstops axis_names [0, 1, 2] limits m with
      | some e => some (.error e)
      | none =>
        let z_factor := m.move_d / |m.axes_d.getD 2 0|
        (limit_speed m (max_z_velocity * z_factor) (max_z_accel * z_factor)).map .ok

/-- `CartKinematicsABC.check_move(move)` (cartesian_abc.py lines
248-287): a position-only pre-check over the configured axes
(`axis_config`), then `_check_endstops` when any pre-check fired, then an
unconditional second `_check_endstops`; the commented-out Z-speed
limiting is absent. -/
noncomputable def abc_check_move (axis_names : List Char) (axis_config : List ℕ)
    (limits : List (ℝ × ℝ)) (m : Move) : Except KinErr Move :=
  let limit_checks := axis_config.enum.map (fun p =>
    let pos := m.end_pos.getD p.2 0
    let lim := limits.getD p.1 (1, -1)
    decide (pos < lim.1 ∨ pos > lim.2))
  let step1 : Option KinErr :=
    if limit_checks.any id then check_endstops axis_names axis_config limits m
    else none
  match step1 with
  | some e => .error e
  | none =>
    match check_endstops axis_names axis_config limits m with
    | some e => .error e
    | none => .ok m

/-! ## Arc interpolation (`src/klippy/extras/gcode_arcs.py`)

`planArc` reads only the plane indices `alpha_axis`, `beta_axis`,
`helical_axis` (a permutation of 0, 1, 2 chosen by the G17/G18/G19 plane)
of the current and target positions, and every coordinate it returns
assigns exactly those three indices (the extruder and any further slots
stay `None`), so positions are modelled as `Fin 3 → ℝ`. -/

/-- Python `math.hypot`. -/
noncomputable def hypot (x y : ℝ) : ℝ :=
  Real.sqrt (x ^ 2 + y ^ 2)

/-- Python `math.atan2(y, x)`, via the complex argument (both return the
angle of `(x, y)` in `(-pi, pi]`). -/
noncomputable def atan2 (y x : ℝ) : ℝ :=
  Complex.arg ⟨x, y⟩

/-- The `angular_travel` computed by `ArcSupport.planArc` (gcode_arcs.py
lines 163-184): the signed angle from `atan2`, normalised into
`[0, 2*pi)`, shifted by `-2*pi` for clockwise arcs, and promoted to a
full circle when it is zero with the target equal to the start in the
plane. -/
noncomputable def arcAngularTravel (currentPos targetPos : Fin 3 → ℝ)
    (offset0 offset1 : ℝ) (clockwise : Bool) (alpha beta : Fin 3) : ℝ :=
  let r_P := -offset0
  let r_Q := -offset1
  let center_P := currentPos alpha - r_P
  let center_Q := currentPos beta - r_Q
  let rt_Alpha := targetPos alpha - center_P
  let rt_Beta := targetPos beta - center_Q
  let a0 := atan2 (r_P * rt_Beta - r_Q * rt_Alpha) (r_P * rt_Alpha + r_Q * rt_Beta)
  let a1 := if a0 < 0 then a0 + 2 * Real.pi else a0
  let a2 := if clockwise then a1 - 2 * Real.pi else a1
  if a2 = 0 ∧ currentPos alpha = targetPos alpha ∧ currentPos beta = targetPos beta then
    2 * Real.pi
  else a2

/-- The `radius` of `planArc` (line 188): `math.hypot(r_P, r_Q)`. -/
noncomputable def arcRadius (offset0 offset1 : ℝ) : ℝ :=
  hypot (-offset0) (-offset1)

/-- The `mm_of_travel` of `planArc` (lines 187-193). -/
noncomputable def arcMmOfTravel (currentPos targetPos : Fin 3 → ℝ)
    (offset0 offset1 : ℝ) (clockwise : Bool) (alpha beta helical : Fin 3) : ℝ :=
  let angular := arcAngularTravel currentPos targetPos offset0 offset1 clockwise alpha beta
  let linear_travel := targetPos helical - currentPos helical
  let flat_mm := arcRadius offset0 offset1 * angular
  if linear_travel ≠ 0 then hypot flat_mm linear_travel else |flat_mm|

/-- The `segments` of `planArc` (line 194):
`max(1., math.floor(mm_of_travel / mm_per_arc_segment))`. -/
noncomputable def arcSegments (res : ℝ) (currentPos targetPos : Fin 3 → ℝ)
    (offset0 offset1 : ℝ) (clockwise : Bool) (alpha beta helical : Fin 3) : ℤ :=
  max 1 ⌊arcMmOfTravel currentPos targetPos offset0 offset1 clockwise alpha beta helical / res⌋

/-- `ArcSupport.planArc` (gcode_arcs.py lines 159-219): emit the interior
segment endpoints for `i in range(1, int(segments))` via the plane
rotation, then append the target itself. -/
noncomputable def planArc (res : ℝ) (currentPos targetPos : Fin 3 → ℝ)
    (offset0 offset1 : ℝ) (clockwise : Bool) (alpha beta helical : Fin 3) :
    List (Fin 3 → ℝ) :=
  let angular := arcAngularTravel currentPos targetPos offset0 offset1 clockwise alpha beta
  let linear_travel := targetPos helical - currentPos helical
  let seg := arcSegments res currentPos targetPos offset0 offset1 clockwise alpha beta helical
  let theta_per_segment := angular / (seg : ℝ)
  let linear_per_segment := linear_travel / (seg : ℝ)
  let interior := (List.range' 1 (seg.toNat - 1)).map (fun i : ℕ =>
    let dist_Helical := (i : ℝ) * linear_per_segment
    let cos_Ti := Real.cos ((i : ℝ) * theta_per_segment)
    let sin_Ti := Real.sin ((i : ℝ) * theta_per_segment)
    let r_Pi := -offset0 * cos_Ti + offset1 * sin_Ti
    let r_Qi := -offset0 * sin_Ti - offset1 * cos_Ti
    fun j : Fin 3 =>
      if j = alpha then (currentPos alpha - -offset0) + r_Pi
      else if j = beta then (currentPos beta - -offset1) + r_Qi
      else currentPos helical + dist_Helical)
  interior ++ [targetPos]

/-! ## Claim-side auxiliary definitions -/

/-- Everything of a `GState` except `last_position`: the fields `cmd_G1`
must leave unchanged when it raises. -/
def g1StatePreserved (s t : GState) : Prop :=
  t.absolute_coord = s.absolute_coord ∧
  t.absolute_extrude = s.absolute_extrude ∧
  t.base_position = s.base_position ∧
  t.homing_position = s.homing_position ∧
  t.speed = s.speed ∧
  t.speed_factor = s.speed_factor ∧
  t.extrude_factor = s.extrude_factor

/-- The check_move violation condition from the spec: axis `a` of the
move has nonzero displacement and its end position lies outside the
`i`-th limit pair. -/
def ViolAt (limits : List (ℝ × ℝ)) (m : Move) (a i : ℕ) : Prop :=
  m.axes_d.getD a 0 ≠ 0 ∧
    (m.end_pos.getD a 0 < (limits.getD i (1, -1)).1 ∨
     m.end_pos.getD a 0 > (limits.getD i (1, -1)).2)

/-- The error `_check_endstops` raises for a violation at limit index
`i`: the "Must home ... first" error exactly when the limit pair is the
unhomed sentinel (`min > max`), the generic "Move out of range" error
otherwise. -/
noncomputable def expectedKinErr (axis_names : List Char) (limits : List (ℝ × ℝ))
    (i : ℕ) : KinErr :=
  if (limits.getD i (1, -1)).1 > (limits.getD i (1, -1)).2 then
    .mustHome (axis_names.getD i '?')
  else .outOfRange

/-- The segment-count travel length as the claim states it:
`hypot(radius * |angular_travel|, linear_travel)`, and
`|radius * angular_travel|` when `linear_travel` is zero. -/
noncomputable def arcMmClaim (currentPos targetPos : Fin 3 → ℝ)
    (offset0 offset1 : ℝ) (clockwise : Bool) (alpha beta helical : Fin 3) : ℝ :=
  let angular := arcAngularTravel currentPos targetPos offset0 offset1 clockwise alpha beta
  let linear_travel := targetPos helical - currentPos helical
  let radius := arcRadius offset0 offset1
  if linear_travel = 0 then |radius * angular|
  else hypot (radius * |angular|) linear_travel

/-! ## Concrete fixtures used by witnesses -/

/-- A concrete toolhead configuration: three kinematic axes,
`max_velocity` 500, `max_accel` 1000, `max_accel_to_decel` 500,
`junction_deviation` 0.01. -/
noncomputable def cfgFixture : THConfig where
  axis_count := 3
  max_velocity := 500
  max_accel := 1000
  max_accel_to_decel := 500
  junction_deviation := 1 / 100

/-- A concrete kinematic move of length 10 along X (accel 5, cruise
limit 100 mm^2/s^2), used to instantiate theorems with hypotheses. -/
noncomputable def moveFixtureA : Move where
  start_pos := [0, 0, 0, 0]
  end_pos := [10, 0, 0, 0]
  accel := 5
  junction_deviation := 1 / 100
  is_kinematic_move := true
  axis_count := 3
  axes_d := [10, 0, 0, 0]
  move_d := 10
  axes_r := [1, 0, 0, 0]
  min_move_t := 1
  max_start_v2 := 0
  max_cruise_v2 := 100
  delta_v2 := 100
  max_smoothed_v2 := 0
  smooth_delta_v2 := 8
  start_v := 0
  cruise_v := 0
  end_v := 0
  accel_t := 0
  cruise_t := 0
  decel_t := 0

/-- A concrete move of length 20 along Z ending at z = 20, used to
exercise the kinematic bounds checks. -/
noncomputable def moveFixtureZ : Move where
  start_pos := [0, 0, 0, 0]
  end_pos := [0, 0, 20, 0]
  accel := 100
  junction_deviation := 1 / 100
  is_kinematic_move := true
  axis_count := 3
  axes_d := [0, 0, 20, 0]
  move_d := 20
  axes_r := [0, 0, 1, 0]
  min_move_t := 1
  max_start_v2 := 0
  max_cruise_v2 := 100
  delta_v2 := 4000
  max_smoothed_v2 := 0
  smooth_delta_v2 := 2000
  start_v := 0
  cruise_v := 0
  end_v := 0
  accel_t := 0
  cruise_t := 0
  decel_t := 0

/-! ## C9: the two radiometer checksums -/

/-- Shared core for C9: for any nonempty byte string the two checksum
extractions agree, because the last byte of the big-endian encoding and
the first byte of the little-endian encoding are both the
least-significant byte of the byte sum. -/
theorem crc_bytes_eq (data : List ℕ) (h : data ≠ []) :
    check_crc data = calc_crc data := by
  unfold check_crc calc_crc to_bytes_big to_bytes_little
  rw [if_neg h, if_neg h]
  by_cases hs : data.sum < 256 ^ 4
  · rw [if_pos hs, if_pos hs]
    have hr : List.range 4 = [0, 1, 2, 3] := by decide
    simp [hr]
  · rw [if_neg hs, if_neg hs]
    rfl

/-- C9, counterexample: the claim that the fake radiometer's `check_crc`
and the real radiometer's `calc_crc` produce different checksum byte
values on some input is false; no such byte string exists. -/
theorem crc_differs_refuted :
    ¬∃ data : List ℕ, data ≠ [] ∧ check_crc data ≠ calc_crc data := by
  rintro ⟨data, hne, hdiff⟩
  exact hdiff (crc_bytes_eq data hne)

/-- C9 (corrected): `check_crc` (fakeradiometer.py lines 53-55, big-endian
serialization, last byte) and `calc_crc` (radiometer.py lines 68-70,
little-endian serialization, first byte) extract the same checksum byte
value on every nonempty byte string, namely the byte sum mod 256; the
endianness difference does not change the extracted byte. -/
theorem crc_bytes_agree (data : List ℕ) (h : data ≠ []) :
    check_crc data = calc_crc data :=
  crc_bytes_eq data h

/-- Witness for C9: the two checksums agree on the concrete packet prefix
`[0x53, 0x01]`. -/
theorem crc_bytes_agree_witness :
    ([83, 1] : List ℕ) ≠ [] ∧ check_crc [83, 1] = calc_crc [83, 1] :=
  ⟨by decide, crc_bytes_agree [83, 1] (by decide)⟩

/-! ## C10: `Move.limit_speed` -/

/-- C10 (confirmed): for `speed > 0` and `accel >= 0`, `limit_speed`
succeeds and never increases `max_cruise_v2`, `accel` or
`smooth_delta_v2`; afterwards `max_cruise_v2 = min(old, speed^2)`,
`accel = min(old, accel)` and `delta_v2 = 2 * move_d * accel`, and a
second application with the same arguments returns the same move. -/
theorem limit_speed_spec (m : Move) (speed accel : ℝ) (hs : 0 < speed) (_ha : 0 ≤ accel) :
    ∃ m', limit_speed m speed accel = some m' ∧
      m'.max_cruise_v2 = min m.max_cruise_v2 (speed ^ 2) ∧
      m'.accel = min m.accel accel ∧
      m'.delta_v2 = 2 * m.move_d * m'.accel ∧
      m'.max_cruise_v2 ≤ m.max_cruise_v2 ∧
      m'.accel ≤ m.accel ∧
      m'.smooth_delta_v2 ≤ m.smooth_delta_v2 ∧
      limit_speed m' speed accel = some m' := by
  have h0 : speed ≠ 0 := ne_of_gt hs
  by_cases h : speed ^ 2 < m.max_cruise_v2
  · refine ⟨{ m with
              max_cruise_v2 := speed ^ 2
              min_move_t := m.move_d / speed
              accel := min m.accel accel
              delta_v2 := 2 * m.move_d * min m.accel accel
              smooth_delta_v2 := min m.smooth_delta_v2 (2 * m.move_d * min m.accel accel) },
      ?_, ?_, ?_, ?_, ?_, ?_, ?_, ?_⟩
    · simp [limit_speed, h, h0]
    · exact (min_eq_right h.le).symm
    · rfl
    · rfl
    · exact h.le
    · exact min_le_left _ _
    · exact min_le_left _ _
    · simp [limit_speed, h0, min_assoc]
  · refine ⟨{ m with
              accel := min m.accel accel
              delta_v2 := 2 * m.move_d * min m.accel accel
              smooth_delta_v2 := min m.smooth_delta_v2 (2 * m.move_d * min m.accel accel) },
      ?_, ?_, ?_, ?_, ?_, ?_, ?_, ?_⟩
    · simp [limit_speed, h, h0]
    · exact (min_eq_left (not_lt.mp h)).symm
    · rfl
    · rfl
    · exact le_refl _
    · exact min_le_left _ _
    · exact min_le_left _ _
    · simp [limit_speed, h, h0, min_assoc]

/-- Witness for C10: `limit_speed` on the concrete length-10 move at
speed 2 and accel 3 yields a move with `accel = min 5 3` and
`delta_v2 = 2 * 10 * accel`. -/
theorem limit_speed_spec_witness :
    ∃ m', limit_speed moveFixtureA 2 3 = some m' ∧
      m'.max_cruise_v2 = min 100 4 ∧ m'.accel = min 5 3 ∧
      m'.delta_v2 = 2 * 10 * m'.accel ∧ limit_speed m' 2 3 = some m' := by
  obtain ⟨m', h1, h2, h3, h4, -, -, -, h8⟩ :=
    limit_speed_spec moveFixtureA 2 3 (by norm_num) (by norm_num)
  refine ⟨m', h1, ?_, ?_, ?_, h8⟩
  · simpa [moveFixtureA, show (2 : ℝ) ^ 2 = 4 from by norm_num] using h2
  · simpa [moveFixtureA] using h3
  · simpa [moveFixtureA] using h4

/-! ## C3: `Move.set_junction` -/

/-- C3, counterexample: `set_junction` is not total on nonnegative inputs
with `start_v2 <= cruise_v2` and `end_v2 <= cruise_v2`.  At
`start_v2 = cruise_v2 = end_v2 = 0` (a legal input by the claim, and the
zero-cruise case the claim says does not fault) the Python code raises
`ZeroDivisionError` at `accel_t = accel_d / ((start_v + cruise_v) * .5)`
since both velocities are zero; there is no guard making `cruise_t` zero
when `cruise_v` is zero. -/
theorem set_junction_zero_cruise_faults :
    set_junction moveFixtureA 0 0 0 = none := by
  simp [set_junction, moveFixtureA]

/-- C3 (corrected): `set_junction` computes the claim's trapezoid
formulas, but only off the zero-cruise case: for `0 < cruise_v2` (and a
positive `accel`, as the planner guarantees), with
`0 <= start_v2 <= cruise_v2` and `0 <= end_v2 <= cruise_v2`, it succeeds
and assigns `accel_d = (cruise_v2 - start_v2)/(2 accel)`,
`decel_d = (cruise_v2 - end_v2)/(2 accel)`,
`accel_t = accel_d / ((start_v + cruise_v)/2)`,
`cruise_t = (move_d - accel_d - decel_d) / cruise_v`,
`decel_t = decel_d / ((end_v + cruise_v)/2)`; when `cruise_v2 = 0` it
faults instead of returning `cruise_t = 0`. -/
theorem set_junction_formulas (m : Move) (start_v2 cruise_v2 end_v2 : ℝ)
    (ha : 0 < m.accel) (h1 : 0 ≤ start_v2) (_h2 : start_v2 ≤ cruise_v2)
    (h3 : 0 ≤ end_v2) (_h4 : end_v2 ≤ cruise_v2) (h5 : 0 < cruise_v2) :
    ∃ m', set_junction m start_v2 cruise_v2 end_v2 = some m' ∧
      m'.start_v = Real.sqrt start_v2 ∧
      m'.cruise_v = Real.sqrt cruise_v2 ∧
      m'.end_v = Real.sqrt end_v2 ∧
      m'.accel_t = ((cruise_v2 - start_v2) / (2 * m.accel)) /
        ((Real.sqrt start_v2 + Real.sqrt cruise_v2) / 2) ∧
      m'.cruise_t = (m.move_d - (cruise_v2 - start_v2) / (2 * m.accel) -
        (cruise_v2 - end_v2) / (2 * m.accel)) / Real.sqrt cruise_v2 ∧
      m'.decel_t = ((cruise_v2 - end_v2) / (2 * m.accel)) /
        ((Real.sqrt end_v2 + Real.sqrt cruise_v2) / 2) := by
  have hacc : m.accel ≠ 0 := ne_of_gt ha
  have hneg : ¬(start_v2 < 0 ∨ cruise_v2 < 0 ∨ end_v2 < 0) := by
    push_neg
    exact ⟨h1, h5.le, h3⟩
  have hcv : 0 < Real.sqrt cruise_v2 := Real.sqrt_pos.mpr h5
  have hsv : 0 ≤ Real.sqrt start_v2 := Real.sqrt_nonneg _
  have hev : 0 ≤ Real.sqrt end_v2 := Real.sqrt_nonneg _
  have g1 : (Real.sqrt start_v2 + Real.sqrt cruise_v2) * 0.5 ≠ 0 := by
    have : (0 : ℝ) < (Real.sqrt start_v2 + Real.sqrt cruise_v2) * 0.5 := by
      have hsum : (0 : ℝ) < Real.sqrt start_v2 + Real.sqrt cruise_v2 := by linarith
      linarith
    exact ne_of_gt this
  have g2 : Real.sqrt cruise_v2 ≠ 0 := ne_of_gt hcv
  have g3 : (Real.sqrt end_v2 + Real.sqrt cruise_v2) * 0.5 ≠ 0 := by
    have : (0 : ℝ) < (Real.sqrt end_v2 + Real.sqrt cruise_v2) * 0.5 := by
      have hsum : (0 : ℝ) < Real.sqrt end_v2 + Real.sqrt cruise_v2 := by linarith
      linarith
    exact ne_of_gt this
  refine ⟨{ m with
            start_v := Real.sqrt start_v2
            cruise_v := Real.sqrt cruise_v2
            end_v := Real.sqrt end_v2
            accel_t := ((cruise_v2 - start_v2) * (0.5 / m.accel)) /
              ((Real.sqrt start_v2 + Real.sqrt cruise_v2) * 0.5)
            cruise_t := (m.move_d - (cruise_v2 - start_v2) * (0.5 / m.accel) -
              (cruise_v2 - end_v2) * (0.5 / m.accel)) / Real.sqrt cruise_v2
            decel_t := ((cruise_v2 - end_v2) * (0.5 / m.accel)) /
              ((Real.sqrt end_v2 + Real.sqrt cruise_v2) * 0.5) },
    ?_, rfl, rfl, rfl, ?_, ?_, ?_⟩
  · simp only [set_junction, if_neg hacc, if_neg hneg, if_neg g1, if_neg g2, if_neg g3]
  · field_simp
    ring
  · field_simp
    ring
  · field_simp
    ring

/-- Witness for C3: the corrected trapezoid formulas on the concrete
length-10 move with `start_v2 = 0`, `cruise_v2 = 4`, `end_v2 = 0`. -/
theorem set_junction_formulas_witness :
    ∃ m', set_junction moveFixtureA 0 4 0 = some m' ∧
      m'.cruise_v = Real.sqrt 4 := by
  obtain ⟨m', hm, -, hc, -, -, -, -⟩ :=
    set_junction_formulas moveFixtureA 0 4 0 (by norm_num [moveFixtureA]) (by norm_num)
      (by norm_num) (by norm_num) (by norm_num) (by norm_num)
  exact ⟨m', hm, hc⟩

/-! ## C1: `Move.calc_junction` junction cosine -/

/-- Evaluation helper: the unit-length move from the origin with
displacement `(-3/5, 4/5, 0)` (extruder unchanged). -/
theorem moveP_eval :
    (Move.init cfgFixture [0, 0, 0, 0] [-(3 / 5), 4 / 5, 0, 0] 10).axes_r
        = [-(3 / 5), 4 / 5, 0, 0] ∧
      (Move.init cfgFixture [0, 0, 0, 0] [-(3 / 5), 4 / 5, 0, 0] 10).is_kinematic_move
        = true ∧
      (Move.init cfgFixture [0, 0, 0, 0] [-(3 / 5), 4 / 5, 0, 0] 10).axis_count = 3 := by
  have hax : cfgFixture.axis_count = 3 := rfl
  have hr4 : List.range 4 = [0, 1, 2, 3] := by decide
  have hd : moveAxesD 3 [0, 0, 0, 0] [-(3 / 5), 4 / 5, 0, 0] = [-(3 / 5), 4 / 5, 0, 0] := by
    norm_num [moveAxesD, hr4]
  have hdist : moveDist 3 [0, 0, 0, 0] [-(3 / 5), 4 / 5, 0, 0] = 1 := by
    simp only [moveDist, hd]
    rw [show ((([-(3 / 5), 4 / 5, 0, 0] : List ℝ).take 3).map (fun d => d * d)).sum
        = 1 by norm_num [List.take, List.map, List.sum]]
    exact Real.sqrt_one
  refine ⟨?_, ?_, ?_⟩
  · simp only [Move.init, hax, hdist, hd]
    rw [if_neg (by norm_num)]
    norm_num
  · simp only [Move.init, hax, hdist]
    rw [if_neg (by norm_num)]
  · simp only [Move.init, hax, hdist]
    rw [if_neg (by norm_num)]

/-- Evaluation helper: the unit-length move that follows it with
displacement `(3/5, 4/5, 0)`. -/
theorem moveQ_eval :
    (Move.init cfgFixture [-(3 / 5), 4 / 5, 0, 0] [0, 8 / 5, 0, 0] 10).axes_r
        = [3 / 5, 4 / 5, 0, 0] ∧
      (Move.init cfgFixture [-(3 / 5), 4 / 5, 0, 0] [0, 8 / 5, 0, 0] 10).is_kinematic_move
        = true ∧
      (Move.init cfgFixture [-(3 / 5), 4 / 5, 0, 0] [0, 8 / 5, 0, 0] 10).axis_count = 3 := by
  have hax : cfgFixture.axis_count = 3 := rfl
  have hr4 : List.range 4 = [0, 1, 2, 3] := by decide
  have hd : moveAxesD 3 [-(3 / 5), 4 / 5, 0, 0] [0, 8 / 5, 0, 0] = [3 / 5, 4 / 5, 0, 0] := by
    norm_num [moveAxesD, hr4]
  have hdist : moveDist 3 [-(3 / 5), 4 / 5, 0, 0] [0, 8 / 5, 0, 0] = 1 := by
    simp only [moveDist, hd]
    rw [show ((([3 / 5, 4 / 5, 0, 0] : List ℝ).take 3).map (fun d => d * d)).sum
        = 1 by norm_num [List.take, List.map, List.sum]]
    exact Real.sqrt_one
  refine ⟨?_, ?_, ?_⟩
  · simp only [Move.init, hax, hdist, hd]
    rw [if_neg (by norm_num)]
    norm_num
  · simp only [Move.init, hax, hdist]
    rw [if_neg (by norm_num)]
  · simp only [Move.init, hax, hdist]
    rw [if_neg (by norm_num)]

/-- C1 (code_bug): `Move.calc_junction` does not compute the junction
cosine as the negative dot product of the two unit direction vectors.
The Python loop `-sum([axes_r[0] * prev_axes_r[0] for i in
range(self.axis_count)])` (toolhead_stepper.py line 142) never uses the
loop index, so it evaluates `-axis_count * axes_r[0] * prev_axes_r[0]`.
For the consecutive unit moves with directions `(-3/5, 4/5, 0)` and
`(3/5, 4/5, 0)` the code's cosine is `27/25 > 0.999999`, so
`calc_junction` returns with the junction limits unchanged, while the
claimed cosine `-(u_prev . u) = -7/25` is not above the threshold and
would require the junction limits to be updated. -/
theorem calc_junction_cos_bug :
    junction_cos_code 3
        (Move.init cfgFixture [-(3 / 5), 4 / 5, 0, 0] [0, 8 / 5, 0, 0] 10).axes_r
        (Move.init cfgFixture [0, 0, 0, 0] [-(3 / 5), 4 / 5, 0, 0] 10).axes_r = 27 / 25 ∧
      junction_cos_spec 3
        (Move.init cfgFixture [-(3 / 5), 4 / 5, 0, 0] [0, 8 / 5, 0, 0] 10).axes_r
        (Move.init cfgFixture [0, 0, 0, 0] [-(3 / 5), 4 / 5, 0, 0] 10).axes_r = -(7 / 25) ∧
      ((27 / 25 : ℝ) > 0.999999) ∧
      ¬((-(7 / 25) : ℝ) > 0.999999) ∧
      calc_junction 1000 (Move.init cfgFixture [0, 0, 0, 0] [-(3 / 5), 4 / 5, 0, 0] 10)
          (Move.init cfgFixture [-(3 / 5), 4 / 5, 0, 0] [0, 8 / 5, 0, 0] 10)
        = Move.init cfgFixture [-(3 / 5), 4 / 5, 0, 0] [0, 8 / 5, 0, 0] 10 := by
  obtain ⟨hPr, hPk, hPa⟩ := moveP_eval
  obtain ⟨hQr, hQk, hQa⟩ := moveQ_eval
  have hr3 : List.range 3 = [0, 1, 2] := by decide
  have hcode : junction_cos_code 3 ([3 / 5, 4 / 5, 0, 0] : List ℝ)
      ([-(3 / 5), 4 / 5, 0, 0] : List ℝ) = 27 / 25 := by
    simp [junction_cos_code, hr3]
    norm_num
  have hspec : junction_cos_spec 3 ([3 / 5, 4 / 5, 0, 0] : List ℝ)
      ([-(3 / 5), 4 / 5, 0, 0] : List ℝ) = -(7 / 25) := by
    simp [junction_cos_spec, hr3]
    norm_num
  refine ⟨by rw [hQr, hPr, hcode], by rw [hQr, hPr, hspec], by norm_num, by norm_num, ?_⟩
  simp only [calc_junction, hPk, hQk, hQa, hQr, hPr, hcode]
  rw [if_neg (by simp), if_pos (by norm_num)]

/-! ## C6: `ExtraToolHead.move` and `commanded_pos` -/

/-- Evaluation helper for the C6 counterexample: the move from the
origin to `(1e-10, 0, 0, 1)` is reclassified extrude-only. -/
theorem moveT_eval :
    (Move.init cfgFixture [0, 0, 0, 0] [1 / 10000000000, 0, 0, 1] 5).move_d = 1 ∧
      (Move.init cfgFixture [0, 0, 0, 0] [1 / 10000000000, 0, 0, 1] 5).axes_d
        = [0, 0, 0, 1] ∧
      (Move.init cfgFixture [0, 0, 0, 0] [1 / 10000000000, 0, 0, 1] 5).end_pos
        = [0, 0, 0, 1] := by
  have hax : cfgFixture.axis_count = 3 := rfl
  have hr4 : List.range 4 = [0, 1, 2, 3] := by decide
  have hr3 : List.range 3 = [0, 1, 2] := by decide
  have hd : moveAxesD 3 [0, 0, 0, 0] [1 / 10000000000, 0, 0, 1]
      = [1 / 10000000000, 0, 0, 1] := by
    norm_num [moveAxesD, hr4]
  have hdist : moveDist 3 [0, 0, 0, 0] [1 / 10000000000, 0, 0, 1]
      = 1 / 10000000000 := by
    simp only [moveDist, hd]
    rw [show ((([1 / 10000000000, 0, 0, 1] : List ℝ).take 3).map (fun d => d * d)).sum
        = (1 / 10000000000) * (1 / 10000000000) by
      norm_num [List.take, List.map, List.sum]]
    exact Real.sqrt_mul_self (by norm_num)
  refine ⟨?_, ?_, ?_⟩
  · simp only [Move.init, hax, hdist, hd]
    rw [if_pos (by norm_num)]
    norm_num [List.getD]
  · simp only [Move.init, hax, hdist, hd]
    rw [if_pos (by norm_num)]
    norm_num [List.getD, List.replicate]
  · simp only [Move.init, hax, hdist, hd]
    rw [if_pos (by norm_num)]
    simp only [hr3]
    norm_num [List.getD]

/-- C6, counterexample: a move whose kinematic displacement is nonzero
but below 1e-9 (here 1e-10 on X) with a nonzero extruder displacement is
not rejected, yet `commanded_pos` afterwards is `move.end_pos`, whose
kinematic components were reset to the start position by the extrude-only
reclassification in `Move.__init__`; it does not equal the requested
position `p`. -/
theorem toolhead_move_tiny_counterexample :
    toolhead_move cfgFixture true [0, 0, 0, 0] [1 / 10000000000, 0, 0, 1] 5
        = .moved [0, 0, 0, 1] ∧
      ([0, 0, 0, 1] : List ℝ) ≠ [1 / 10000000000, 0, 0, 1] := by
  obtain ⟨hmd, hdd, hep⟩ := moveT_eval
  have hax : cfgFixture.axis_count = 3 := rfl
  constructor
  · simp only [toolhead_move, hax, hmd, hdd, hep]
    rw [if_neg (by norm_num), if_neg (by simp)]
  · intro h
    have := congrArg (fun l => l.getD 0 0) h
    norm_num [List.getD] at this

/-- C6 (corrected): after a non-rejected `move(p, v)` the toolhead's
`commanded_pos` equals `move.end_pos`; this equals `p` component-wise
whenever the kinematic displacement is at least 1e-9.  (For a nonzero
kinematic displacement below 1e-9 the move is reclassified extrude-only
and the kinematic components of `commanded_pos` stay at the previous
position, as the counterexample shows.) -/
theorem toolhead_move_commanded_pos (cfg : THConfig) (eok : Bool) (cp p : List ℝ)
    (v : ℝ) (hdist : ¬moveDist cfg.axis_count cp p < 1 / 1000000000)
    (he : (moveAxesD cfg.axis_count cp p).getD cfg.axis_count 0 ≠ 0 → eok = true) :
    toolhead_move cfg eok cp p v = .moved p := by
  have hpos : (0 : ℝ) < moveDist cfg.axis_count cp p := by
    have : (1 : ℝ) / 1000000000 ≤ moveDist cfg.axis_count cp p := not_lt.mp hdist
    linarith
  simp only [toolhead_move, Move.init, if_neg hdist]
  rw [if_neg (ne_of_gt hpos)]
  rw [if_neg ?_]
  rintro ⟨hne, hok⟩
  exact hok (he hne)

/-- Witness for C6 (corrected): a plain 10 mm X move with no extruder
displacement lands `commanded_pos` exactly on the requested position. -/
theorem toolhead_move_commanded_pos_witness :
    toolhead_move cfgFixture false [0, 0, 0, 0] [10, 0, 0, 0] 5 = .moved [10, 0, 0, 0] := by
  have hax : cfgFixture.axis_count = 3 := rfl
  have hr4 : List.range 4 = [0, 1, 2, 3] := by decide
  have hd : moveAxesD 3 [0, 0, 0, 0] [10, 0, 0, 0] = [10, 0, 0, 0] := by
    norm_num [moveAxesD, hr4]
  have hdist : moveDist 3 [0, 0, 0, 0] [10, 0, 0, 0] = 10 := by
    simp only [moveDist, hd]
    rw [show ((([10, 0, 0, 0] : List ℝ).take 3).map (fun d => d * d)).sum
        = 10 * 10 by norm_num [List.take, List.map, List.sum]]
    exact Real.sqrt_mul_self (by norm_num)
  refine toolhead_move_commanded_pos cfgFixture false [0, 0, 0, 0] [10, 0, 0, 0] 5 ?_ ?_
  · rw [hax, hdist]
    norm_num
  · rw [hax, hd]
    intro h
    exact absurd (by norm_num [List.getD]) h

/-! ## C4: `cmd_G1` error handling -/

/-- `g1UpdateAxis` touches only `last_position`. -/
theorem g1UpdateAxis_preserved (s : GState) (pos : ℕ) (v : ℚ) :
    g1StatePreserved s (g1UpdateAxis s pos v) := by
  unfold g1UpdateAxis g1StatePreserved
  split <;> exact ⟨rfl, rfl, rfl, rfl, rfl, rfl, rfl⟩

/-- `g1StatePreserved` composes. -/
theorem g1Pres_trans {s t u : GState} (h1 : g1StatePreserved s t)
    (h2 : g1StatePreserved t u) : g1StatePreserved s u := by
  obtain ⟨a1, a2, a3, a4, a5, a6, a7⟩ := h1
  obtain ⟨b1, b2, b3, b4, b5, b6, b7⟩ := h2
  exact ⟨b1.trans a1, b2.trans a2, b3.trans a3, b4.trans a4, b5.trans a5,
    b6.trans a6, b7.trans a7⟩

theorem g1Pres_refl (s : GState) : g1StatePreserved s s :=
  ⟨rfl, rfl, rfl, rfl, rfl, rfl, rfl⟩

/-- The axis loop of `cmd_G1` touches only `last_position`. -/
theorem g1Axes_preserved (p : ℕ → GParam) :
    ∀ (l : List ℕ) (s : GState), g1StatePreserved s (g1Axes p l s).1 := by
  intro l
  induction l with
  | nil => intro s; exact g1Pres_refl s
  | cons a rest ih =>
    intro s
    cases hp : p a with
    | absent => simpa [g1Axes, hp] using ih s
    | malformed => simp [g1Axes, hp]; exact g1Pres_refl s
    | val v =>
      simp only [g1Axes, hp]
      exact g1Pres_trans (g1UpdateAxis_preserved s a v) (ih (g1UpdateAxis s a v))

/-- The extruder branch of `cmd_G1` touches only `last_position`. -/
theorem g1Extruder_preserved (ac : ℕ) (pE : GParam) (s : GState) :
    g1StatePreserved s (g1Extruder ac pE s).1 := by
  cases pE with
  | absent => exact g1Pres_refl s
  | malformed => exact g1Pres_refl s
  | val v =>
    simp only [g1Extruder]
    by_cases hc : s.absolute_coord = false ∨ s.absolute_extrude = false
    · rw [if_pos hc]
      exact ⟨rfl, rfl, rfl, rfl, rfl, rfl, rfl⟩
    · rw [if_neg hc]
      exact ⟨rfl, rfl, rfl, rfl, rfl, rfl, rfl⟩

/-- A malformed axis parameter anywhere in the loop raises. -/
theorem g1Axes_err (p : ℕ → GParam) :
    ∀ (l : List ℕ) (s : GState), (∃ a ∈ l, p a = .malformed) →
      (g1Axes p l s).2 = true := by
  intro l
  induction l with
  | nil => intro s h; obtain ⟨a, ha, -⟩ := h; exact absurd ha (List.not_mem_nil a)
  | cons a rest ih =>
    intro s h
    cases hp : p a with
    | absent =>
      simp only [g1Axes, hp]
      obtain ⟨b, hb, hbm⟩ := h
      rcases List.mem_cons.mp hb with rfl | hbr
      · exact absurd hp (by rw [hbm]; intro hc; cases hc)
      · exact ih s ⟨b, hbr, hbm⟩
    | malformed => simp [g1Axes, hp]
    | val v =>
      simp only [g1Axes, hp]
      obtain ⟨b, hb, hbm⟩ := h
      rcases List.mem_cons.mp hb with rfl | hbr
      · rw [hp] at hbm; cases hbm
      · exact ih (g1UpdateAxis s a v) ⟨b, hbr, hbm⟩

/-- Equation: when the axis loop raises, `cmd_G1` stops there. -/
theorem cmd_G1_eq_axes (ac : ℕ) (p : ℕ → GParam) (pE pF : GParam) (s : GState)
    (h1 : (g1Axes p (List.range ac) s).2 = true) :
    cmd_G1 ac p pE pF s = g1Axes p (List.range ac) s := by
  unfold cmd_G1
  rw [if_pos h1]

/-- Equation: when only the extruder branch raises, `cmd_G1` stops there. -/
theorem cmd_G1_eq_extruder (ac : ℕ) (p : ℕ → GParam) (pE pF : GParam) (s : GState)
    (h1 : (g1Axes p (List.range ac) s).2 = false)
    (h2 : (g1Extruder ac pE (g1Axes p (List.range ac) s).1).2 = true) :
    cmd_G1 ac p pE pF s = g1Extruder ac pE (g1Axes p (List.range ac) s).1 := by
  unfold cmd_G1
  rw [if_neg (by simp [h1]), if_pos h2]

/-- Equation: when neither the axis loop nor the extruder branch raises,
`cmd_G1` ends in the feedrate branch. -/
theorem cmd_G1_eq_feedrate (ac : ℕ) (p : ℕ → GParam) (pE pF : GParam) (s : GState)
    (h1 : (g1Axes p (List.range ac) s).2 = false)
    (h2 : (g1Extruder ac pE (g1Axes p (List.range ac) s).1).2 = false) :
    cmd_G1 ac p pE pF s
      = g1Feedrate pF (g1Extruder ac pE (g1Axes p (List.range ac) s).1).1 := by
  unfold cmd_G1
  rw [if_neg (by simp [h1]), if_neg (by simp [h2])]

/-- On any raising path, `cmd_G1` leaves everything but `last_position`
unchanged. -/
theorem cmd_G1_error_preserves (ac : ℕ) (p : ℕ → GParam) (pE pF : GParam) (s : GState)
    (h : (cmd_G1 ac p pE pF s).2 = true) :
    g1StatePreserved s (cmd_G1 ac p pE pF s).1 := by
  have hA := g1Axes_preserved p (List.range ac) s
  have hB := g1Extruder_preserved ac pE (g1Axes p (List.range ac) s).1
  cases hb1 : (g1Axes p (List.range ac) s).2 with
  | true => rw [cmd_G1_eq_axes ac p pE pF s hb1]; exact hA
  | false =>
    cases hb2 : (g1Extruder ac pE (g1Axes p (List.range ac) s).1).2 with
    | true =>
      rw [cmd_G1_eq_extruder ac p pE pF s hb1 hb2]
      exact g1Pres_trans hA hB
    | false =>
      rw [cmd_G1_eq_feedrate ac p pE pF s hb1 hb2] at h ⊢
      cases pF with
      | absent => exact Bool.noConfusion h
      | malformed => exact g1Pres_trans hA hB
      | val f =>
        by_cases hf : f ≤ 0
        · simp only [g1Feedrate]
          rw [if_pos hf]
          exact g1Pres_trans hA hB
        · simp only [g1Feedrate] at h
          rw [if_neg hf] at h
          exact Bool.noConfusion h

/-- C4 (corrected): whenever the parameters contain a non-numeric axis,
extruder or feedrate value, or a feedrate `F <= 0`, `cmd_G1` reports a
command error, and `speed`, `base_position`, `homing_position`, the
coordinate-mode flags and the factors are unchanged — but `last_position`
entries written for axis parameters processed before the failing one keep
their new values (the state is not fully unmutated, contrary to the
original claim; see the counterexample). -/
theorem cmd_G1_error_behavior (ac : ℕ) (p : ℕ → GParam) (pE pF : GParam) (s : GState)
    (h : (∃ i, i < ac ∧ p i = .malformed) ∨ pE = .malformed ∨ pF = .malformed ∨
      (∃ f, pF = .val f ∧ f ≤ 0)) :
    (cmd_G1 ac p pE pF s).2 = true ∧
      g1StatePreserved s (cmd_G1 ac p pE pF s).1 := by
  have herr : (cmd_G1 ac p pE pF s).2 = true := by
    cases hb1 : (g1Axes p (List.range ac) s).2 with
    | true => rw [cmd_G1_eq_axes ac p pE pF s hb1]; exact hb1
    | false =>
      cases hb2 : (g1Extruder ac pE (g1Axes p (List.range ac) s).1).2 with
      | true => rw [cmd_G1_eq_extruder ac p pE pF s hb1 hb2]; exact hb2
      | false =>
        rw [cmd_G1_eq_feedrate ac p pE pF s hb1 hb2]
        rcases h with ⟨i, hi, him⟩ | hEm | hFm | ⟨f, hFv, hf⟩
        · have := g1Axes_err p (List.range ac) s ⟨i, List.mem_range.mpr hi, him⟩
          rw [hb1] at this
          exact Bool.noConfusion this
        · rw [hEm] at hb2
          exact Bool.noConfusion hb2
        · rw [hFm]
          rfl
        · rw [hFv]
          simp only [g1Feedrate]
          rw [if_pos hf]
  exact ⟨herr, cmd_G1_error_preserves ac p pE pF s herr⟩

/-- C4, counterexample: on `G1 X10 F0` from the origin state the command
errors (invalid speed), yet `last_position[0]` has already been set to
10: the motion state is not left unchanged on error. -/
theorem cmd_G1_partial_mutation :
    (cmd_G1 3 (fun i => if i = 0 then .val 10 else .absent) .absent (.val 0)
        ⟨true, true, [0, 0, 0, 0], [0, 0, 0, 0], [0, 0, 0, 0], 25, 1 / 60, 1⟩).2
      = true ∧
    (cmd_G1 3 (fun i => if i = 0 then .val 10 else .absent) .absent (.val 0)
        ⟨true, true, [0, 0, 0, 0], [0, 0, 0, 0], [0, 0, 0, 0], 25, 1 / 60, 1⟩).1.last_position
      ≠ [0, 0, 0, 0] := by
  have hr3 : List.range 3 = [0, 1, 2] := by decide
  constructor
  · norm_num [cmd_G1, hr3, g1Axes, g1UpdateAxis, g1Extruder, g1Feedrate, List.getD]
  · norm_num [cmd_G1, hr3, g1Axes, g1UpdateAxis, g1Extruder, g1Feedrate, List.getD]

/-- Witness for C4 (corrected): the `G1 X10 F0` command errors while
preserving every non-`last_position` field. -/
theorem cmd_G1_error_behavior_witness :
    (cmd_G1 3 (fun i => if i = 0 then .val 10 else .absent) .absent (.val 0)
        ⟨true, true, [0, 0, 0, 0], [0, 0, 0, 0], [0, 0, 0, 0], 25, 1 / 60, 1⟩).2
      = true ∧
    g1StatePreserved ⟨true, true, [0, 0, 0, 0], [0, 0, 0, 0], [0, 0, 0, 0], 25, 1 / 60, 1⟩
      (cmd_G1 3 (fun i => if i = 0 then .val 10 else .absent) .absent (.val 0)
        ⟨true, true, [0, 0, 0, 0], [0, 0, 0, 0], [0, 0, 0, 0], 25, 1 / 60, 1⟩).1 :=
  cmd_G1_error_behavior 3 (fun i => if i = 0 then .val 10 else .absent) .absent (.val 0)
    ⟨true, true, [0, 0, 0, 0], [0, 0, 0, 0], [0, 0, 0, 0], 25, 1 / 60, 1⟩
    (Or.inr (Or.inr (Or.inr ⟨0, rfl, by norm_num⟩)))

/-! ## C5: `cmd_G92` -/

/-- C5 (code_bug evaluation): with the XYZABC axis set (`axis_count = 6`,
seven offset slots) a `G92` with no parameters leaves `base_position`
unchanged instead of snapshotting `last_position`, because the source
compares the offsets list against the hardcoded four-element
`[None, None, None, None]`; with the XYZ axis set the same command does
snapshot.  The first conjunct evaluates the failing input, the last shows
the intended behavior on XYZ. -/
theorem cmd_G92_no_params_sixaxis :
    cmd_G92 6 (List.replicate 7 none)
        ⟨true, true, [0, 0, 0, 0, 0, 0, 0], [2, 3, 4, 5, 6, 7, 8],
          [0, 0, 0, 0, 0, 0, 0], 25, 1 / 60, 1⟩
      = ⟨true, true, [0, 0, 0, 0, 0, 0, 0], [2, 3, 4, 5, 6, 7, 8],
          [0, 0, 0, 0, 0, 0, 0], 25, 1 / 60, 1⟩ ∧
    ([0, 0, 0, 0, 0, 0, 0] : List ℚ) ≠ [2, 3, 4, 5, 6, 7, 8] ∧
    cmd_G92 3 (List.replicate 4 none)
        ⟨true, true, [0, 0, 0, 0], [2, 3, 4, 5], [0, 0, 0, 0], 25, 1 / 60, 1⟩
      = ⟨true, true, [2, 3, 4, 5], [2, 3, 4, 5], [0, 0, 0, 0], 25, 1 / 60, 1⟩ := by
  have h7 : List.replicate 7 (none : Option ℚ)
      = [none, none, none, none, none, none, none] := rfl
  have h4 : List.replicate 4 (none : Option ℚ) = [none, none, none, none] := rfl
  refine ⟨?_, ?_, ?_⟩
  · norm_num [cmd_G92, h7, g92Loop, List.enum]
    decide
  · norm_num
  · norm_num [cmd_G92, h4, g92Loop, List.enum]

/-! ## C7: `planArc` segment count and final endpoint -/

/-- The code's `mm_of_travel` equals the claim's formulation
(`hypot(radius * |angular|, linear)`, and `|radius * angular|` when the
linear travel is zero): the absolute value on `angular` is immaterial
inside `hypot`. -/
theorem arcMmClaim_eq (currentPos targetPos : Fin 3 → ℝ) (offset0 offset1 : ℝ)
    (clockwise : Bool) (alpha beta helical : Fin 3) :
    arcMmClaim currentPos targetPos offset0 offset1 clockwise alpha beta helical
      = arcMmOfTravel currentPos targetPos offset0 offset1 clockwise alpha beta helical := by
  unfold arcMmClaim arcMmOfTravel
  by_cases hl : targetPos helical - currentPos helical = 0
  · rw [if_pos hl, if_neg (not_not_intro hl)]
  · rw [if_neg hl, if_pos hl]
    unfold hypot
    congr 1
    rw [mul_pow, mul_pow, sq_abs]

/-- C7 (confirmed): for a positive resolution, `planArc` returns exactly
`max(1, floor(mm_of_travel / resolution))` coordinates, with
`mm_of_travel = hypot(radius * |angular_travel|, linear_travel)` (and
`|radius * angular_travel|` when `linear_travel` is zero), and the last
returned coordinate is exactly the target position. -/
theorem planArc_count_last (res : ℝ) (currentPos targetPos : Fin 3 → ℝ)
    (offset0 offset1 : ℝ) (clockwise : Bool) (alpha beta helical : Fin 3)
    (_hres : 0 < res) :
    (planArc res currentPos targetPos offset0 offset1 clockwise alpha beta helical).length
        = (max 1 ⌊arcMmClaim currentPos targetPos offset0 offset1 clockwise alpha beta
            helical / res⌋).toNat ∧
      (planArc res currentPos targetPos offset0 offset1 clockwise alpha beta
          helical).getLast? = some targetPos := by
  constructor
  · have hseg1 : 1 ≤ (arcSegments res currentPos targetPos offset0 offset1 clockwise
        alpha beta helical).toNat := by
      have h1 : (1 : ℤ) ≤ arcSegments res currentPos targetPos offset0 offset1 clockwise
          alpha beta helical := le_max_left _ _
      exact_mod_cast Int.toNat_le_toNat h1
    simp only [planArc]
    rw [List.length_append, List.length_map, List.length_range', List.length_singleton]
    have hs : arcSegments res currentPos targetPos offset0 offset1 clockwise alpha beta
        helical = max 1 ⌊arcMmClaim currentPos targetPos offset0 offset1 clockwise alpha
          beta helical / res⌋ := by
      unfold arcSegments
      rw [arcMmClaim_eq]
    have hto : (arcSegments res currentPos targetPos offset0 offset1 clockwise alpha beta
        helical).toNat = (max 1 ⌊arcMmClaim currentPos targetPos offset0 offset1
          clockwise alpha beta helical / res⌋).toNat := by
      rw [hs]
    rw [Nat.sub_add_cancel hseg1]
    exact hto
  · simp only [planArc]
    rw [List.getLast?_concat]

/-- Witness for C7: the count-and-endpoint property at the concrete
quarter-circle call (resolution 1, centre offset `(5, 0)`). -/
theorem planArc_count_last_witness :
    (planArc 1 (fun _ => 0) (fun j => if j = 0 then 5 else if j = 1 then 5 else 0)
        5 0 false 0 1 2).length
      = (max 1 ⌊arcMmClaim (fun _ => 0)
          (fun j => if j = 0 then 5 else if j = 1 then 5 else 0) 5 0 false 0 1 2 / 1⌋).toNat ∧
    (planArc 1 (fun _ => 0) (fun j => if j = 0 then 5 else if j = 1 then 5 else 0)
        5 0 false 0 1 2).getLast?
      = some (fun j => if j = 0 then 5 else if j = 1 then 5 else 0) :=
  planArc_count_last 1 (fun _ => 0) (fun j => if j = 0 then 5 else if j = 1 then 5 else 0)
    5 0 false 0 1 2 (by norm_num)

/-! ## C8: `check_move` bounds errors -/

/-- When no walked axis violates its limit, `_check_endstops` raises
nothing. -/
theorem check_endstops_go_none (names : List Char) (limits : List (ℝ × ℝ)) (m : Move) :
    ∀ (l : List ℕ) (k : ℕ),
      (∀ j, j < l.length → ¬ViolAt limits m (l.getD j 0) (k + j)) →
      check_endstops_go names limits m k l = none := by
  intro l
  induction l with
  | nil => intro k _; rfl
  | cons a rest ih =>
    intro k h
    have h0 := h 0 (by simp)
    simp only [List.getD_cons_zero, Nat.add_zero, ViolAt] at h0
    unfold check_endstops_go
    rw [if_neg h0]
    refine ih (k + 1) (fun j hj => ?_)
    have := h (j + 1) (by simpa using Nat.succ_lt_succ hj)
    rw [show k + 1 + j = k + (j + 1) by omega]
    simpa using this

/-- `_check_endstops` raises the error of the first violating axis. -/
theorem check_endstops_go_first (names : List Char) (limits : List (ℝ × ℝ)) (m : Move) :
    ∀ (l : List ℕ) (k i : ℕ), i < l.length →
      ViolAt limits m (l.getD i 0) (k + i) →
      (∀ j, j < i → ¬ViolAt limits m (l.getD j 0) (k + j)) →
      check_endstops_go names limits m k l
        = some (expectedKinErr names limits (k + i)) := by
  intro l
  induction l with
  | nil => intro k i hi; simp at hi
  | cons a rest ih =>
    intro k i hi hv hmin
    cases i with
    | zero =>
      simp only [List.getD_cons_zero, Nat.add_zero] at hv
      have hv' := hv
      simp only [ViolAt] at hv'
      unfold check_endstops_go
      rw [if_pos hv']
      simp [expectedKinErr]
    | succ i' =>
      have hhead : ¬ViolAt limits m a k := by
        have := hmin 0 (Nat.succ_pos _)
        simpa using this
      simp only [ViolAt] at hhead
      unfold check_endstops_go
      rw [if_neg hhead]
      have hrec := ih (k + 1) i' (by simpa using Nat.lt_of_succ_lt_succ hi)
        (by rw [show k + 1 + i' = k + (i' + 1) by omega]; simpa using hv)
        (fun j hj => by
          rw [show k + 1 + j = k + (j + 1) by omega]
          have := hmin (j + 1) (Nat.succ_lt_succ hj)
          simpa using this)
      rw [hrec, show k + 1 + i' = k + (i' + 1) by omega]

/-- Existence of a least index satisfying a bounded predicate. -/
theorem exists_first_index (n : ℕ) (P : ℕ → Prop) (h : ∃ i, i < n ∧ P i) :
    ∃ i, i < n ∧ P i ∧ ∀ j, j < i → ¬P j := by
  classical
  obtain ⟨i, hin, hp⟩ := h
  have hex : ∃ i, P i := ⟨i, hp⟩
  exact ⟨Nat.find hex, lt_of_le_of_lt (Nat.find_min' hex hp) hin, Nat.find_spec hex,
    fun j hj => Nat.find_min hex hj⟩

/-- The index list `[0, 1, 2]` of `CartKinematics` is the identity. -/
theorem cart_getD (j : ℕ) (hj : j < 3) : (([0, 1, 2] : List ℕ).getD j 0) = j := by
  interval_cases j <;> rfl

/-- `CartKinematics.check_move` raises the first violating axis's error. -/
theorem cart_check_move_error (names : List Char) (zv za : ℝ) (limits : List (ℝ × ℝ))
    (m : Move) (i : ℕ) (hi : i < 3) (hv : ViolAt limits m i i)
    (hmin : ∀ j, j < i → ¬ViolAt limits m j j) :
    cart_check_move names zv za limits m
      = some (.error (expectedKinErr names limits i)) := by
  have hsome : check_endstops names [0, 1, 2] limits m
      = some (expectedKinErr names limits i) := by
    have := check_endstops_go_first names limits m [0, 1, 2] 0 i (by simpa using hi)
      (by rw [cart_getD i hi, Nat.zero_add]; exact hv)
      (fun j hj => by
        rw [cart_getD j (lt_trans hj hi), Nat.zero_add]
        exact hmin j hj)
    rw [Nat.zero_add] at this
    exact this
  have hvu := hv
  simp only [ViolAt] at hvu
  simp only [cart_check_move]
  rw [hsome]
  interval_cases i
  · rw [if_pos ?_]
    rcases hvu.2 with h | h
    · exact Or.inl h
    · exact Or.inr (Or.inl h)
  · rw [if_pos ?_]
    rcases hvu.2 with h | h
    · exact Or.inr (Or.inr (Or.inl h))
    · exact Or.inr (Or.inr (Or.inr h))
  · by_cases hxy : m.end_pos.getD 0 0 < (limits.getD 0 (1, -1)).1 ∨
        m.end_pos.getD 0 0 > (limits.getD 0 (1, -1)).2 ∨
        m.end_pos.getD 1 0 < (limits.getD 1 (1, -1)).1 ∨
        m.end_pos.getD 1 0 > (limits.getD 1 (1, -1)).2
    · rw [if_pos hxy]
    · rw [if_neg hxy, if_neg hvu.1]

/-- `CartKinematics.check_move` succeeds when no axis violates. -/
theorem cart_check_move_ok (names : List Char) (zv za : ℝ) (limits : List (ℝ × ℝ))
    (m : Move) (hzv : 0 < zv) (hmd : m.axes_d.getD 2 0 ≠ 0 → 0 < m.move_d)
    (hnov : ∀ i, i < 3 → ¬ViolAt limits m i i) :
    ∃ m', cart_check_move names zv za limits m = some (.ok m') := by
  have hnone : check_endstops names [0, 1, 2] limits m = none := by
    refine check_endstops_go_none names limits m [0, 1, 2] 0 (fun j hj => ?_)
    have hj3 : j < 3 := by simpa using hj
    rw [cart_getD j hj3, Nat.zero_add]
    exact hnov j hj3
  simp only [cart_check_move]
  rw [hnone, ite_self]
  by_cases hdz : m.axes_d.getD 2 0 = 0
  · rw [if_pos hdz]
    exact ⟨m, rfl⟩
  · rw [if_neg hdz]
    have hzf : 0 < m.move_d / |m.axes_d.getD 2 0| :=
      div_pos (hmd hdz) (abs_pos.mpr hdz)
    have hsp : zv * (m.move_d / |m.axes_d.getD 2 0|) ≠ 0 :=
      ne_of_gt (mul_pos hzv hzf)
    unfold limit_speed
    rw [if_neg (fun hc => hsp hc.2)]
    exact ⟨_, rfl⟩

/-- `CartKinematicsABC.check_move` raises the first violating axis's
error. -/
theorem abc_check_move_error (names : List Char) (axis_config : List ℕ)
    (limits : List (ℝ × ℝ)) (m : Move) (i : ℕ) (hi : i < axis_config.length)
    (hv : ViolAt limits m (axis_config.getD i 0) i)
    (hmin : ∀ j, j < i → ¬ViolAt limits m (axis_config.getD j 0) j) :
    abc_check_move names axis_config limits m
      = .error (expectedKinErr names limits i) := by
  have hsome : check_endstops names axis_config limits m
      = some (expectedKinErr names limits i) := by
    have := check_endstops_go_first names limits m axis_config 0 i hi
      (by rw [Nat.zero_add]; exact hv)
      (fun j hj => by rw [Nat.zero_add]; exact hmin j hj)
    rw [Nat.zero_add] at this
    exact this
  simp only [abc_check_move]
  rw [hsome]
  by_cases hany : (axis_config.enum.map (fun p =>
      decide (m.end_pos.getD p.2 0 < (limits.getD p.1 (1, -1)).1 ∨
        m.end_pos.getD p.2 0 > (limits.getD p.1 (1, -1)).2))).any id
  · rw [if_pos hany]
  · rw [if_neg hany]

/-- `CartKinematicsABC.check_move` succeeds when no axis violates. -/
theorem abc_check_move_ok (names : List Char) (axis_config : List ℕ)
    (limits : List (ℝ × ℝ)) (m : Move)
    (hnov : ∀ i, i < axis_config.length → ¬ViolAt limits m (axis_config.getD i 0) i) :
    abc_check_move names axis_config limits m = .ok m := by
  have hnone : check_endstops names axis_config limits m = none := by
    refine check_endstops_go_none names limits m axis_config 0 (fun j hj => ?_)
    rw [Nat.zero_add]
    exact hnov j hj
  simp only [abc_check_move]
  rw [hnone, ite_self]

/-- C8 (confirmed): for both cartesian kinematics, `check_move` succeeds
exactly when no bound axis has nonzero displacement with its end position
outside the axis's limits; when a violation exists, it raises the first
violating axis's error, which is "Must home axis X first" (naming the
axis letter) exactly when that axis's limits are the unhomed sentinel
(`min > max`) and the generic "Move out of range" error otherwise.  The
numeric hypotheses make the Z-speed limiting of the XYZ kinematic
well-defined (`max_z_velocity` is configured positive and a kinematic
move with Z displacement has positive length). -/
theorem check_move_error_characterization (names : List Char) (zv za : ℝ)
    (limits : List (ℝ × ℝ)) (m : Move) (names2 : List Char) (axis_config : List ℕ)
    (limits2 : List (ℝ × ℝ)) (m2 : Move) (hzv : 0 < zv)
    (hmd : m.axes_d.getD 2 0 ≠ 0 → 0 < m.move_d) :
    ((∃ m', cart_check_move names zv za limits m = some (.ok m')) ↔
      ∀ i, i < 3 → ¬ViolAt limits m i i) ∧
    (∀ i, i < 3 → ViolAt limits m i i → (∀ j, j < i → ¬ViolAt limits m j j) →
      cart_check_move names zv za limits m
        = some (.error (expectedKinErr names limits i))) ∧
    ((abc_check_move names2 axis_config limits2 m2 = .ok m2) ↔
      ∀ i, i < axis_config.length → ¬ViolAt limits2 m2 (axis_config.getD i 0) i) ∧
    (∀ i, i < axis_config.length → ViolAt limits2 m2 (axis_config.getD i 0) i →
      (∀ j, j < i → ¬ViolAt limits2 m2 (axis_config.getD j 0) j) →
      abc_check_move names2 axis_config limits2 m2
        = .error (expectedKinErr names2 limits2 i)) := by
  refine ⟨⟨?_, cart_check_move_ok names zv za limits m hzv hmd⟩,
    cart_check_move_error names zv za limits m, ⟨?_,
    abc_check_move_ok names2 axis_config limits2 m2⟩,
    abc_check_move_error names2 axis_config limits2 m2⟩
  · rintro ⟨m', hok⟩
    by_contra hneg
    push_neg at hneg
    obtain ⟨i, hi, hvi⟩ := hneg
    obtain ⟨i0, hi0, hv0, hmin0⟩ :=
      exists_first_index 3 (fun i => ViolAt limits m i i) ⟨i, hi, hvi⟩
    rw [cart_check_move_error names zv za limits m i0 hi0 hv0 hmin0] at hok
    simp at hok
  · intro hok
    by_contra hneg
    push_neg at hneg
    obtain ⟨i, hi, hvi⟩ := hneg
    obtain ⟨i0, hi0, hv0, hmin0⟩ := exists_first_index axis_config.length
      (fun i => ViolAt limits2 m2 (axis_config.getD i 0) i) ⟨i, hi, hvi⟩
    rw [abc_check_move_error names2 axis_config limits2 m2 i0 hi0 hv0 hmin0] at hok
    simp at hok

/-- Witness for C8: the concrete Z move to `z = 20` with X and Y homed to
`(0, 10)` and Z unhomed (sentinel limits `(1, -1)`) raises the
"Must home axis Z first" error. -/
theorem check_move_error_characterization_witness :
    cart_check_move ['X', 'Y', 'Z'] 1 1 [(0, 10), (0, 10), (1, -1)] moveFixtureZ
      = some (.error (.mustHome 'Z')) := by
  have h := (check_move_error_characterization ['X', 'Y', 'Z'] 1 1
    [(0, 10), (0, 10), (1, -1)] moveFixtureZ ['X', 'Y', 'Z'] [0, 1, 2]
    [(0, 10), (0, 10), (1, -1)] moveFixtureZ (by norm_num)
    (fun _ => by norm_num [moveFixtureZ])).2.1 2 (by norm_num)
    (by constructor <;> norm_num [ViolAt, moveFixtureZ, List.getD])
    (fun j hj => by
      interval_cases j <;> simp [ViolAt, moveFixtureZ, List.getD])
  rw [h]
  norm_num [expectedKinErr, List.getD]

/-! ## C2: `print_time` monotonicity -/

/-- The `_update_move_time` loop, run with enough fuel, lands exactly on
`next_print_time`. -/
theorem umtGo_eq (batch : ℚ) (hb : 0 < batch) :
    ∀ (n : ℕ) (pt next : ℚ), (next - pt) / batch ≤ (n : ℚ) →
      umtGo (n + 1) batch pt next = next := by
  intro n
  induction n with
  | zero =>
    intro pt next h
    have h2 : (next - pt) / batch * batch ≤ 0 * batch := by
      push_cast at h
      exact mul_le_mul_of_nonneg_right h hb.le
    rw [div_mul_cancel₀ _ (ne_of_gt hb), zero_mul] at h2
    simp only [umtGo]
    rw [min_eq_right (by linarith), if_pos le_rfl]
  | succ n ih =>
    intro pt next h
    simp only [umtGo]
    by_cases hex : next ≤ min (pt + batch) next
    · rw [if_pos hex]
      exact le_antisymm (min_le_right _ _) hex
    · rw [if_neg hex]
      have hmin : min (pt + batch) next = pt + batch := by
        by_cases hc : pt + batch ≤ next
        · exact min_eq_left hc
        · exact absurd (le_of_eq (min_eq_right (le_of_not_le hc)).symm) hex
      rw [hmin]
      apply ih
      have hq : (next - (pt + batch)) / batch = (next - pt) / batch - 1 := by
        field_simp
        ring
      rw [hq]
      push_cast at h ⊢
      linarith

/-- `_update_move_time(next)` always leaves `print_time` equal to
`next_print_time` (the loop caps each batch step at `next`). -/
theorem update_move_time_print_time (c : THConsts) (hb : 0 < c.move_batch_time)
    (next : ℚ) (s : THState) :
    (update_move_time c next s).print_time = next := by
  show umtGo (umtFuel c.move_batch_time s.print_time next) c.move_batch_time
    s.print_time next = next
  unfold umtFuel
  apply umtGo_eq c.move_batch_time hb
  have h1 : (next - s.print_time) / c.move_batch_time
      ≤ ((⌈(next - s.print_time) / c.move_batch_time⌉ : ℤ) : ℚ) := Int.le_ceil _
  have h2 : (⌈(next - s.print_time) / c.move_batch_time⌉ : ℤ)
      ≤ ((⌈(next - s.print_time) / c.move_batch_time⌉.toNat : ℕ) : ℤ) :=
    Int.self_le_toNat _
  exact h1.trans (by exact_mod_cast h2)

/-- `_calc_print_time` never decreases `print_time`. -/
theorem calc_print_time_mono (c : THConsts) (est : ℚ) (s : THState) :
    s.print_time ≤ (calc_print_time c est s).print_time := by
  simp only [calc_print_time]
  split_ifs with h
  · exact le_of_lt h
  · exact le_rfl

/-- The drip loop of `_update_drip_move_time` never decreases
`print_time`. -/
theorem drip_update_mono (c : THConsts) (next : ℚ) (hb : 0 < c.move_batch_time)
    (hseg : 0 ≤ c.drip_segment_time) :
    ∀ (tests : List Bool) (s : THState),
      s.print_time ≤ (drip_update c next tests s).1.print_time := by
  intro tests
  induction tests with
  | nil => intro s; exact le_rfl
  | cons t rest ih =>
    intro s
    simp only [drip_update]
    by_cases hlt : ¬s.print_time < next
    · rw [if_pos hlt]
    · rw [if_neg hlt]
      cases t with
      | true => rw [if_pos rfl]
      | false =>
        rw [if_neg (by simp)]
        refine le_trans ?_ (ih _)
        rw [update_move_time_print_time c hb]
        push_neg at hlt
        exact le_min (le_add_of_nonneg_right hseg) hlt.le

/-- `_process_moves` never decreases `print_time`. -/
theorem process_moves_mono (c : THConsts) (est : ℚ) (durs : List ℚ) (tests : List Bool)
    (s : THState) (hb : 0 < c.move_batch_time) (hseg : 0 ≤ c.drip_segment_time)
    (hd : ∀ d ∈ durs, 0 ≤ d) :
    s.print_time ≤ (process_moves c est durs tests s).1.print_time := by
  have hsum : 0 ≤ durs.sum := List.sum_nonneg hd
  simp only [process_moves]
  have hpt1 : s.print_time ≤ (if s.special_queuing_state ≠ QueueState.main then
      calc_print_time c est (if s.special_queuing_state ≠ QueueState.main then
        (if s.special_queuing_state ≠ QueueState.drip then
          { s with special_queuing_state := QueueState.main } else s) else s)
      else (if s.special_queuing_state ≠ QueueState.main then
        (if s.special_queuing_state ≠ QueueState.drip then
          { s with special_queuing_state := QueueState.main } else s) else s)).print_time := by
    have hpt0 : (if s.special_queuing_state ≠ QueueState.main then
        (if s.special_queuing_state ≠ QueueState.drip then
          { s with special_queuing_state := QueueState.main } else s) else s).print_time
        = s.print_time := by
      split_ifs <;> rfl
    by_cases h1 : s.special_queuing_state ≠ QueueState.main
    · rw [if_pos h1]
      exact le_trans (le_of_eq hpt0.symm) (calc_print_time_mono c est _)
    · rw [if_neg h1]
      exact le_of_eq hpt0.symm
  generalize hS1 : (if s.special_queuing_state ≠ QueueState.main then
      calc_print_time c est (if s.special_queuing_state ≠ QueueState.main then
        (if s.special_queuing_state ≠ QueueState.drip then
          { s with special_queuing_state := QueueState.main } else s) else s)
      else (if s.special_queuing_state ≠ QueueState.main then
        (if s.special_queuing_state ≠ QueueState.drip then
          { s with special_queuing_state := QueueState.main } else s) else s)) = s1 at hpt1 ⊢
  have hpt2 : s1.print_time ≤ (if s1.special_queuing_state = QueueState.drip then
      drip_update c (s1.print_time + durs.sum) tests s1 else (s1, false)).1.print_time := by
    split_ifs with h
    · exact drip_update_mono c _ hb hseg tests s1
    · exact le_rfl
  generalize hS2 : (if s1.special_queuing_state = QueueState.drip then
      drip_update c (s1.print_time + durs.sum) tests s1 else (s1, false)) = step2
    at hpt2 ⊢
  by_cases hsig : step2.2 = true
  · rw [if_pos hsig]
    exact le_trans hpt1 hpt2
  · rw [if_neg hsig]
    show s.print_time
      ≤ (update_move_time c (s1.print_time + durs.sum) step2.1).print_time
    rw [update_move_time_print_time c hb]
    linarith

/-- `MoveQueue.flush` never decreases `print_time`. -/
theorem queue_flush_mono (c : THConsts) (est : ℚ) (q : QueueFlushInput) (s : THState)
    (hb : 0 < c.move_batch_time) (hseg : 0 ≤ c.drip_segment_time) (hq : q.Nonneg) :
    s.print_time ≤ (queue_flush c est q s).1.print_time := by
  cases q with
  | none => exact le_rfl
  | some p =>
    obtain ⟨durs, tests⟩ := p
    exact process_moves_mono c est durs tests s hb hseg (hq durs tests rfl)

/-- The post-flush tail of `flush_step_generation` never decreases
`print_time`. -/
theorem fsg_post_mono (c : THConsts) (hb : 0 < c.move_batch_time) (sA : THState) :
    sA.print_time ≤ (fsg_post c sA).print_time := by
  simp only [fsg_post]
  rw [update_move_time_print_time c hb]
  refine le_trans ?_ (le_max_left _ _)
  split_ifs with h
  · rw [update_move_time_print_time c hb]
    exact le_of_lt h
  · exact le_rfl

/-- `flush_step_generation` never decreases `print_time`. -/
theorem flush_step_generation_mono (c : THConsts) (est : ℚ) (q : QueueFlushInput)
    (s : THState) (hb : 0 < c.move_batch_time) (hseg : 0 ≤ c.drip_segment_time)
    (hq : q.Nonneg) :
    s.print_time ≤ (flush_step_generation c est q s).1.print_time := by
  have h1 := queue_flush_mono c est q s hb hseg hq
  simp only [flush_step_generation]
  generalize hstep : queue_flush c est q s = step at h1
  obtain ⟨sA, sig⟩ := step
  cases sig with
  | true =>
    rw [if_pos rfl]
    exact h1
  | false =>
    rw [if_neg (by simp)]
    exact le_trans h1 (fsg_post_mono c hb sA)

/-- `_flush_lookahead` never decreases `print_time`. -/
theorem flush_lookahead_mono (c : THConsts) (est : ℚ) (q : QueueFlushInput)
    (s : THState) (hb : 0 < c.move_batch_time) (hseg : 0 ≤ c.drip_segment_time)
    (hq : q.Nonneg) :
    s.print_time ≤ (flush_lookahead c est q s).1.print_time := by
  unfold flush_lookahead
  split_ifs with h
  · exact flush_step_generation_mono c est q s hb hseg hq
  · exact queue_flush_mono c est q s hb hseg hq

/-- `get_last_move_time` never decreases `print_time`. -/
theorem get_last_move_time_mono (c : THConsts) (est : ℚ) (q : QueueFlushInput)
    (s : THState) (hb : 0 < c.move_batch_time) (hseg : 0 ≤ c.drip_segment_time)
    (hq : q.Nonneg) :
    s.print_time ≤ (get_last_move_time c est q s).1.print_time := by
  have h1 := flush_lookahead_mono c est q s hb hseg hq
  simp only [get_last_move_time]
  generalize hstep : flush_lookahead c est q s = step at h1
  obtain ⟨sA, sig⟩ := step
  cases sig with
  | true =>
    rw [if_pos rfl]
    exact h1
  | false =>
    rw [if_neg (by simp)]
    split_ifs with h
    · exact le_trans h1 (calc_print_time_mono c est sA)
    · exact h1

/-- `dwell` never decreases `print_time`. -/
theorem dwell_mono (c : THConsts) (est : ℚ) (q : QueueFlushInput) (delay : ℚ)
    (s : THState) (hb : 0 < c.move_batch_time) (hseg : 0 ≤ c.drip_segment_time)
    (hq : q.Nonneg) :
    s.print_time ≤ (dwell c est q delay s).1.print_time := by
  have h1 := get_last_move_time_mono c est q s hb hseg hq
  simp only [dwell]
  generalize hstep : get_last_move_time c est q s = step at h1
  obtain ⟨sA, sig⟩ := step
  cases sig with
  | true =>
    rw [if_pos rfl]
    exact h1
  | false =>
    rw [if_neg (by simp)]
    show s.print_time
      ≤ (update_move_time c (sA.print_time + max 0 delay) sA).print_time
    rw [update_move_time_print_time c hb]
    exact le_trans h1 (le_add_of_nonneg_right (le_max_left 0 delay))

/-- `drip_move` never decreases `print_time`. -/
theorem drip_move_mono (c : THConsts) (i : DripInputs) (s : THState)
    (hb : 0 < c.move_batch_time) (hseg : 0 ≤ c.drip_segment_time)
    (h1 : i.q_dwell.Nonneg) (h2 : i.q_entry.Nonneg) (h3 : i.q_move.Nonneg)
    (h4 : ∀ d ∈ i.drip_durs, 0 ≤ d) (h5 : i.q_exit.Nonneg) :
    s.print_time ≤ (drip_move c i s).1.print_time := by
  have hd := dwell_mono c i.est_dwell i.q_dwell s.kin_flush_delay s hb hseg h1
  simp only [drip_move]
  generalize hs1 : dwell c i.est_dwell i.q_dwell s.kin_flush_delay s = step1 at hd
  obtain ⟨sA, sig1⟩ := step1
  cases sig1 with
  | true =>
    rw [if_pos rfl]
    exact hd
  | false =>
    rw [if_neg (by simp)]
    have hq2 := queue_flush_mono c i.est_entry i.q_entry sA hb hseg h2
    generalize hs2 : queue_flush c i.est_entry i.q_entry sA = step2 at hq2
    obtain ⟨sB, sig2⟩ := step2
    cases sig2 with
    | true =>
      rw [if_pos rfl]
      exact le_trans hd hq2
    | false =>
      rw [if_neg (by simp)]
      cases hme : i.move_error with
      | true =>
        rw [if_pos rfl]
        have hf := flush_step_generation_mono c i.est_moveflush i.q_move
          { sB with special_queuing_state := QueueState.drip } hb hseg h3
        exact le_trans (le_trans hd hq2) hf
      | false =>
        rw [if_neg (by simp)]
        have hq3 := queue_flush_mono c i.est_moveflush i.q_move
          { sB with special_queuing_state := QueueState.drip } hb hseg h3
        generalize hs3 : queue_flush c i.est_moveflush i.q_move
          { sB with special_queuing_state := QueueState.drip } = step3 at hq3
        obtain ⟨sC, sig3⟩ := step3
        cases sig3 with
        | true =>
          rw [if_pos rfl]
          exact le_trans (le_trans hd hq2) hq3
        | false =>
          rw [if_neg (by simp)]
          have hp4 := process_moves_mono c i.est_drip i.drip_durs i.drip_tests sC
            hb hseg h4
          have hf5 := flush_step_generation_mono c i.est_exit i.q_exit
            (process_moves c i.est_drip i.drip_durs i.drip_tests sC).1 hb hseg h5
          exact le_trans (le_trans (le_trans hd hq2) hq3) (le_trans hp4 hf5)

/-- C2 (confirmed): `print_time` is monotonically non-decreasing across
every public toolhead operation — `move`, `dwell`, `set_position`,
`flush_step_generation`, `wait_moves`, `drip_move`, `get_last_move_time`
— and across the internal `_update_move_time`, `_calc_print_time` and
`_process_moves` as they are invoked there.  Hypotheses: `MOVE_BATCH_TIME`
is positive and `DRIP_SEGMENT_TIME` nonnegative, every flushed move has a
nonnegative planned duration (the trapezoid phase times), and
`_update_move_time` is invoked with `next_print_time` at or after
`print_time`, as at every call site in the source. -/
theorem print_time_monotone (c : THConsts) (hb : 0 < c.move_batch_time)
    (hseg : 0 ≤ c.drip_segment_time) (s : THState) (est : ℚ) (q : QueueFlushInput)
    (hq : q.Nonneg) (delay : ℚ) (durs : List ℚ) (tests : List Bool)
    (hdurs : ∀ d ∈ durs, 0 ≤ d) (next : ℚ) (hnext : s.print_time ≤ next)
    (i : DripInputs) (hi1 : i.q_dwell.Nonneg) (hi2 : i.q_entry.Nonneg)
    (hi3 : i.q_move.Nonneg) (hi4 : ∀ d ∈ i.drip_durs, 0 ≤ d) (hi5 : i.q_exit.Nonneg) :
    s.print_time ≤ (move_clock c est q s).1.print_time ∧
    s.print_time ≤ (dwell c est q delay s).1.print_time ∧
    s.print_time ≤ (set_position_clock c est q s).1.print_time ∧
    s.print_time ≤ (flush_step_generation c est q s).1.print_time ∧
    s.print_time ≤ (wait_moves c est q s).1.print_time ∧
    s.print_time ≤ (drip_move c i s).1.print_time ∧
    s.print_time ≤ (get_last_move_time c est q s).1.print_time ∧
    s.print_time ≤ (update_move_time c next s).print_time ∧
    s.print_time ≤ (calc_print_time c est s).print_time ∧
    s.print_time ≤ (process_moves c est durs tests s).1.print_time := by
  refine ⟨queue_flush_mono c est q s hb hseg hq,
    dwell_mono c est q delay s hb hseg hq,
    flush_step_generation_mono c est q s hb hseg hq,
    flush_step_generation_mono c est q s hb hseg hq,
    flush_lookahead_mono c est q s hb hseg hq,
    drip_move_mono c i s hb hseg hi1 hi2 hi3 hi4 hi5,
    get_last_move_time_mono c est q s hb hseg hq, ?_,
    calc_print_time_mono c est s,
    process_moves_mono c est durs tests s hb hseg hdurs⟩
  rw [update_move_time_print_time c hb]
  exact hnext

/-- Witness for C2: the dwell conjunct at a concrete configuration and
state (batch 1/2 s, drip segment 1/20 s, all queue inputs empty, one
second of dwell from a fresh state). -/
theorem print_time_monotone_witness :
    (⟨0, QueueState.main, 0, 0, 1 / 100⟩ : THState).print_time
      ≤ (dwell ⟨1 / 2, 1 / 4, 1 / 20, 1 / 4⟩ 0 none 1
          ⟨0, QueueState.main, 0, 0, 1 / 100⟩).1.print_time :=
  (print_time_monotone ⟨1 / 2, 1 / 4, 1 / 20, 1 / 4⟩ (by norm_num) (by norm_num)
    ⟨0, QueueState.main, 0, 0, 1 / 100⟩ 0 none (by rintro durs tests h; cases h) 1
    [] [] (by intro d hd; cases hd) 1 (by norm_num)
    ⟨0, none, 0, none, false, 0, none, 0, [], [], 0, none⟩
    (by rintro durs tests h; cases h) (by rintro durs tests h; cases h)
    (by rintro durs tests h; cases h) (by intro d hd; cases hd)
    (by rintro durs tests h; cases h)).2.1

end Klippy

